import Mathlib

/-!
# Fabric gateway API: authentication gate and transaction gateway

A shallow embedding of the Go packages `utils/auth`, `service` and
`api/handler`.  Functions of the repository are transcribed as Lean
functions; the libraries they call (golang-jwt, encoding/json, net/http,
fabric-gateway client) are either passed in as parameters or modelled by the
small definitions of the first sections, each of which says what it stands for.
-/

namespace FabricGateway

/-! ## Go values -/

/-- Go `[]byte`. -/
abbrev Bytes := List UInt8

/-- The conversion `[]byte(s)` of a Go string. -/
def bytesOfString (s : String) : Bytes := s.toUTF8.data.toList

/-- A Go `error` value as far as the program observes it: its `Error()` text and
the answers of `errors.Is` against the three sentinels of the jwt package that
`AuthMiddleware` asks about. -/
structure GoError where
  Error : String
  IsTokenMalformed : Bool
  IsTokenExpired : Bool
  IsTokenNotValidYet : Bool
deriving DecidableEq, Repr

/-- The value built by `errors.New(msg)` (and by `fmt.Errorf` without `%w`): it
matches none of the jwt sentinels. -/
def errorsNew (msg : String) : GoError :=
  { Error := msg, IsTokenMalformed := false, IsTokenExpired := false, IsTokenNotValidYet := false }

/-- A Go `float64`: a finite value `(-1)^neg * mant * 2^exp`, an infinity or NaN. -/
inductive Float64 where
  | finite (neg : Bool) (mant : Nat) (exp : Int)
  | inf (neg : Bool)
  | nan
deriving DecidableEq, Repr

/-- The dynamic values of `interface{}` (`any`) that occur in the program: what
`encoding/json` decodes into `map[string]interface{}` (nil, bool, float64,
string, slice, map), and the `int` and `[]byte` values the handlers encode. -/
inductive Iface where
  | nil
  | bool (b : Bool)
  | int (n : Int)
  | float64 (f : Float64)
  | string (s : String)
  | bytes (b : List UInt8)
  | slice (xs : List Iface)
  | map (m : List (String × Iface))

/-- A Go `map[string]interface{}` (also `jwt.MapClaims`), as an association list.
A Go map holds one entry per key: the first entry of a key is the one that
counts, a later one is shadowed. -/
abbrev GoMap := List (String × Iface)

/-- The result of a Go call that either returns or panics. -/
inductive Outcome (α : Type) where
  | ret (a : α)
  | panic (msg : String)

/-- Map indexing `m[k]`: the zero value (nil interface) when the key is absent. -/
def GoMap.index (m : GoMap) (k : String) : Iface :=
  (m.lookup k).getD Iface.nil

/-- Prefix test on the bytes of a string: `strings.HasPrefix(s, p)`. -/
def stringsHasPrefix (s p : String) : Bool :=
  p.data.isPrefixOf s.data

/-- The library function `strings.TrimPrefix(s, p)`: `s` without the leading `p`, or `s` itself. -/
def stringsTrimPrefix (s p : String) : String :=
  if stringsHasPrefix s p then ⟨s.data.drop p.data.length⟩ else s

/-! ## encoding/json

`json.Marshal` followed by `json.Unmarshal` is modelled on the JSON document
itself: `JSON` stands for the bytes that `Marshal` produces, with number
literals kept as the decimal text denotes them. -/

/-- Number of binary digits of `n`, by halving (`fuel` bounds the steps). -/
def bitLenAux : Nat → Nat → Nat
  | 0, _ => 0
  | fuel + 1, n => if n = 0 then 0 else bitLenAux fuel (n / 2) + 1

/-- Number of binary digits of `n`. -/
def bitLen (n : Nat) : Nat := bitLenAux n n

/-- Number of decimal digits of `n`, by division (`fuel` bounds the steps). -/
def decLenAux : Nat → Nat → Nat
  | 0, _ => 0
  | fuel + 1, n => if n = 0 then 0 else decLenAux fuel (n / 10) + 1

/-- Number of decimal digits of `n`. -/
def decLen (n : Nat) : Nat := decLenAux n n

/-- Rounding of a natural number to a 53-bit significand, ties to even (IEEE-754
binary64, the conversion the JSON decoder applies to a number stored in an
`interface{}`): the pair `(mant, exp)` with value `mant * 2^exp`. -/
def roundToFloat64 (n : Nat) : Nat × Nat :=
  let e := bitLen n - 53
  let q := n / 2 ^ e
  let r := n % 2 ^ e
  if 2 ^ e < 2 * r ∨ (2 * r = 2 ^ e ∧ q % 2 = 1) then (q + 1, e) else (q, e)

/-- The natural number denoted by the float64 nearest to `n`. -/
def nearestFloat64 (n : Nat) : Nat :=
  (roundToFloat64 n).1 * 2 ^ (roundToFloat64 n).2

/-- The float64 that holds the integer `n` after JSON decoding into
`interface{}`; a rounded magnitude of more than 1024 binary digits is out of
range. -/
def float64OfInt (n : Int) : Float64 :=
  let m := roundToFloat64 n.natAbs
  if bitLen m.1 + m.2 ≤ 1024 then Float64.finite (decide (n < 0)) m.1 (Int.ofNat m.2)
  else Float64.inf (decide (n < 0))

/-- The magnitude of a finite float64 when it is a whole number. -/
def wholeMagnitude (mant : Nat) (exp : Int) : Option Nat :=
  match exp with
  | Int.ofNat e => some (mant * 2 ^ e)
  | Int.negSucc e => if mant % 2 ^ (e + 1) = 0 then some (mant / 2 ^ (e + 1)) else none

/-- Search for the shortest decimal that denotes the float64 `v` (a whole number
with `len` digits): with `k` significant digits the candidates are the
neighbours `lo ≤ v < hi` of `v` on the grid of step `10^(len-k)`; a candidate
is good when it reads back as `v`; of two good candidates the nearer one is
taken, the even digit on a tie. -/
def shortestAux (v len : Nat) : Nat → Nat → Nat
  | 0, _ => v
  | fuel + 1, k =>
    if len ≤ k then v
    else
      let s := 10 ^ (len - k)
      let lo := v / s * s
      let hi := lo + s
      let okLo := decide (nearestFloat64 lo = v)
      let okHi := decide (nearestFloat64 hi = v)
      if okLo && okHi then
        if v - lo < hi - v then lo
        else if hi - v < v - lo then hi
        else if (v / s) % 2 = 0 then lo else hi
      else if okLo then lo
      else if okHi then hi
      else shortestAux v len fuel (k + 1)

/-- The whole number printed by `strconv.AppendFloat(b, f, 'f', -1, 64)` for a
float64 of whole magnitude `v`: the shortest digits that read back as `f`. -/
def shortestDecimal (v : Nat) : Nat :=
  shortestAux v (decLen v) 17 1

/-- A JSON number literal: an integer literal (digits only, optional sign), or a
literal with a fraction or an exponent, printed from the given float64. -/
inductive NumLit where
  | int (n : Int)
  | real (f : Float64)
deriving DecidableEq, Repr

/-- A JSON document. -/
inductive JSON where
  | null
  | bool (b : Bool)
  | num (lit : NumLit)
  | str (s : String)
  | arr (xs : List JSON)
  | obj (ms : List (String × JSON))

/-- The float encoder of `encoding/json`: NaN and infinities are unsupported;
a magnitude in `[1e-6, 1e21)` is printed in format `f`, so a whole number
prints as an integer literal; everything else carries a fraction or exponent. -/
def marshalFloat : Float64 → Except GoError JSON
  | Float64.nan => Except.error (errorsNew "json: unsupported value: NaN")
  | Float64.inf neg =>
    Except.error (errorsNew ("json: unsupported value: " ++ (if neg then "-Inf" else "+Inf")))
  | Float64.finite neg mant exp =>
    match wholeMagnitude mant exp with
    | some v =>
      if v < 10 ^ 21 then
        let d := shortestDecimal v
        Except.ok (JSON.num (NumLit.int (if neg then -(Int.ofNat d) else Int.ofNat d)))
      else Except.ok (JSON.num (NumLit.real (Float64.finite neg mant exp)))
    | none => Except.ok (JSON.num (NumLit.real (Float64.finite neg mant exp)))

/-- The alphabet of `base64.StdEncoding`. -/
def base64Alphabet : List Char :=
  "ABCDEFGHIJKLMNOPQRSTUVWXYZabcdefghijklmnopqrstuvwxyz0123456789+/".data

/-- The `n`-th character of the base64 alphabet. -/
def base64Char (n : Nat) : Char := base64Alphabet.getD n 'A'

/-- Standard base64 with padding, the encoding of a `[]byte` in JSON. -/
def base64Encode : List UInt8 → List Char
  | a :: b :: c :: rest =>
    let n := a.toNat * 65536 + b.toNat * 256 + c.toNat
    base64Char (n / 262144) :: base64Char (n / 4096 % 64) :: base64Char (n / 64 % 64)
      :: base64Char (n % 64) :: base64Encode rest
  | [a, b] =>
    let n := a.toNat * 65536 + b.toNat * 256
    [base64Char (n / 262144), base64Char (n / 4096 % 64), base64Char (n / 64 % 64), '=']
  | [a] =>
    let n := a.toNat * 65536
    [base64Char (n / 262144), base64Char (n / 4096 % 64), '=', '=']
  | [] => []

/-- Insertion of an object member into a list sorted by key (byte order); a
member that is already there under the same key gives way. -/
def insertMember (m : String × JSON) : List (String × JSON) → List (String × JSON)
  | [] => [m]
  | x :: xs =>
    if m.1.data < x.1.data then m :: x :: xs
    else if m.1 = x.1 then m :: xs
    else x :: insertMember m xs

/-- The members of a map in the order `Marshal` writes them: one per key (the
first entry of the key), sorted by key. -/
def sortMembers : List (String × JSON) → List (String × JSON)
  | [] => []
  | m :: ms => insertMember m (sortMembers ms)

mutual
/-- The function `json.Marshal` on the values of `Iface`. -/
def Marshal : Iface → Except GoError JSON
  | Iface.nil => Except.ok JSON.null
  | Iface.bool b => Except.ok (JSON.bool b)
  | Iface.int n => Except.ok (JSON.num (NumLit.int n))
  | Iface.float64 f => marshalFloat f
  | Iface.string s => Except.ok (JSON.str s)
  | Iface.bytes b => Except.ok (JSON.str ⟨base64Encode b⟩)
  | Iface.slice xs => (MarshalList xs).map JSON.arr
  | Iface.map m => (MarshalMembers m).map (fun ms => JSON.obj (sortMembers ms))
/-- The elements of a slice, marshalled in order. -/
def MarshalList : List Iface → Except GoError (List JSON)
  | [] => Except.ok []
  | x :: xs =>
    match Marshal x with
    | Except.error e => Except.error e
    | Except.ok a => (MarshalList xs).map (fun b => a :: b)
/-- The entries of a map, each value marshalled. -/
def MarshalMembers : List (String × Iface) → Except GoError (List (String × JSON))
  | [] => Except.ok []
  | (k, x) :: xs =>
    match Marshal x with
    | Except.error e => Except.error e
    | Except.ok a => (MarshalMembers xs).map (fun b => (k, a) :: b)
end


/-! ## net/http and context -/

/-- The signing methods of golang-jwt by their Go type; the key function only
asks whether the dynamic type is `*jwt.SigningMethodHMAC`. -/
inductive SigningMethod where
  | HMAC (alg : String)
  | RSA (alg : String)
  | RSAPSS (alg : String)
  | ECDSA (alg : String)
  | Ed25519
  | None
  | custom (goType alg : String)
deriving DecidableEq, Repr

/-- The struct `jwt.Token`.  `Method` is an interface and may be nil. -/
structure Token where
  Raw : String
  Method : Option SigningMethod
  Header : GoMap
  Claims : GoMap
  Signature : String
  Valid : Bool

/-- The key type of the package: `type JWTKeyName string`. -/
structure CtxKey where
  goType : String
  value : String
deriving DecidableEq, Repr

/-- A value stored in a `context.Context`: a `*jwt.Token` (possibly a nil
pointer) or a value of some other type. -/
inductive CtxVal where
  | token (t : Option Token)
  | other (goType : String)

/-- A `context.Context` as the chain of `WithValue` pairs, innermost first. -/
abbrev Context := List (CtxKey × CtxVal)

/-- The lookup `ctx.Value(key)`: `none` stands for the nil interface. -/
def Context.Value (ctx : Context) (key : CtxKey) : Option CtxVal :=
  ctx.lookup key

/-- The constructor `context.WithValue(ctx, key, val)`. -/
def Context.WithValue (ctx : Context) (key : CtxKey) (val : CtxVal) : Context :=
  (key, val) :: ctx

/-- Multi-valued string maps: `http.Header` (keys canonical) and `url.Values`. -/
abbrev Values := List (String × List String)

/-- The accessor `Get(key)` of `http.Header` and `url.Values`: the first value of
the key, or the empty string. -/
def Values.Get (h : Values) (key : String) : String :=
  match h.lookup key with
  | some (v :: _) => v
  | _ => ""

/-- The parts of `*http.Request` the program reads. -/
structure Request where
  Method : String
  Header : Values
  Query : Values
  Body : String
  ctx : Context

/-- The method `r.WithContext(ctx)`. -/
def Request.WithContext (r : Request) (ctx : Context) : Request :=
  { r with ctx := ctx }

/-- An `http.ResponseWriter`: the header map, the status code once
`WriteHeader` has sent it, and the JSON documents written to the body. -/
structure ResponseWriter where
  header : List (String × String)
  status : Option Nat
  body : List JSON

/-- A fresh response writer. -/
def ResponseWriter.new : ResponseWriter :=
  { header := [], status := none, body := [] }

/-- The characters `net/textproto` accepts in a header field name: letters,
digits and the other token characters of RFC 7230. -/
def validHeaderFieldChar (c : Char) : Bool :=
  c.isAlphanum || "!#$%&'*+-.^_`|~".data.contains c

/-- The canonical letter case of a header field name: upper case at the start
and after each dash, lower case elsewhere. -/
def canonicalHeaderAux : Bool → List Char → List Char
  | _, [] => []
  | upper, c :: cs =>
    let c2 :=
      if upper && decide ('a' ≤ c) && decide (c ≤ 'z') then Char.ofNat (c.toNat - 32)
      else if !upper && decide ('A' ≤ c) && decide (c ≤ 'Z') then Char.ofNat (c.toNat + 32)
      else c
    c2 :: canonicalHeaderAux (c2 == '-') cs

/-- The function `textproto.CanonicalMIMEHeaderKey`: a name made of token
characters is put in canonical case, any other name is left as it is. -/
def CanonicalMIMEHeaderKey (s : String) : String :=
  if s.data.all validHeaderFieldChar then ⟨canonicalHeaderAux true s.data⟩ else s

/-- The call `w.Header().Set(k, v)`: the value replaces what the header map
holds under the canonical form of `k`.  Headers are frozen once the status line
has been sent. -/
def ResponseWriter.HeaderSet (w : ResponseWriter) (k v : String) : ResponseWriter :=
  match w.status with
  | some _ => w
  | none =>
    { w with header := (CanonicalMIMEHeaderKey k, v)
        :: w.header.filter (fun kv => kv.1 != CanonicalMIMEHeaderKey k) }

/-- The call `w.WriteHeader(code)`; only the first call takes effect. -/
def ResponseWriter.WriteHeader (w : ResponseWriter) (code : Nat) : ResponseWriter :=
  match w.status with
  | some _ => w
  | none => { w with status := some code }

/-- The call `json.NewEncoder(w).Encode(data)`: the value is marshalled first
and, if that succeeds, written as one document (an implicit 200 is sent if no
status has been written yet); the error is returned. -/
def ResponseWriter.Encode (w : ResponseWriter) (data : Iface) : ResponseWriter × Option GoError :=
  match Marshal data with
  | Except.error e => (w, some e)
  | Except.ok doc => ({ w with status := some (w.status.getD 200), body := w.body ++ [doc] }, none)

def StatusOK : Nat := 200
def StatusBadRequest : Nat := 400
def StatusForbidden : Nat := 403

/-! ## Package auth -/

/-- The package variable `jwtKeyName JWTKeyName = "tkn"`. -/
def jwtKeyName : CtxKey := { goType := "auth.JWTKeyName", value := "tkn" }

/-- The type `jwt.Keyfunc`. -/
abbrev Keyfunc := Token → Except GoError Bytes

/-- The signature of `jwt.Parse(tokenString, keyFunc)`: the pair `(*Token, error)`. -/
abbrev JwtParse := String → Keyfunc → Option Token × Option GoError

/-- The closure passed to `jwt.Parse` in `TokenFromRequest`.  `fmtV` renders a
value with the verb `%v`. -/
def keyFunc (fmtV : Iface → String) (signKey : String) : Keyfunc := fun token =>
  match token.Method with
  | some (SigningMethod.HMAC _) => Except.ok (bytesOfString signKey)
  | _ => Except.error (errorsNew ("unexpected signing method: " ++ fmtV (token.Header.index "alg")))

def bearerPfx : String := "Bearer "
def TokenHeader : String := "Authorization"

/-- The function `TokenFromRequest(signKey, r)`, with the jwt parser as a parameter. -/
def TokenFromRequest (jwtParse : JwtParse) (fmtV : Iface → String) (signKey : String)
    (r : Request) : Option Token × Option GoError :=
  let authHeader := r.Header.Get TokenHeader
  if authHeader.utf8ByteSize = 0 then
    (none, some (errorsNew "missing header"))
  else if !stringsHasPrefix authHeader bearerPfx then
    (none, some (errorsNew "invalid token prefix"))
  else
    let tkn := stringsTrimPrefix authHeader bearerPfx
    jwtParse tkn (keyFunc fmtV signKey)

/-- A downstream `http.Handler`. -/
abbrev Handler := ResponseWriter → Request → ResponseWriter

/-- What one run of the middleware did: the response writer afterwards, the
lines printed with `log.Println`, and the request `next.ServeHTTP` was called
with (`none` if it was not called). -/
structure MiddlewareRun where
  w : ResponseWriter
  log : List String
  served : Option Request

/-- The last two statements of the middleware: attach the token and call `next`. -/
def serveNext (next : Handler) (w : ResponseWriter) (r : Request) (token : Option Token)
    (log : List String) : MiddlewareRun :=
  let ctx := r.ctx.WithValue jwtKeyName (CtxVal.token token)
  let r2 := r.WithContext ctx
  { w := next w r2, log := log, served := some r2 }

/-- The handler returned by `AuthMiddleware(next)`, applied to `w` and `r`.
`jwtKey` is the package variable set by `Init`. -/
def AuthMiddleware (jwtParse : JwtParse) (fmtV : Iface → String) (jwtKey : String)
    (next : Handler) (w : ResponseWriter) (r : Request) : MiddlewareRun :=
  let w := w.HeaderSet "content-type" "application/json"
  match TokenFromRequest jwtParse fmtV jwtKey r with
  | (token, some err) =>
    match token with
    | none => { w := w.WriteHeader StatusForbidden, log := [], served := none }
    | some t =>
      if t.Valid then
        serveNext next w r token ["You look nice today"]
      else if err.IsTokenMalformed then
        { w := w.WriteHeader StatusForbidden, log := ["That's not even a token"], served := none }
      else if err.IsTokenExpired || err.IsTokenNotValidYet then
        { w := w.WriteHeader StatusForbidden, log := ["Timing is everything"], served := none }
      else
        { w := w.WriteHeader StatusForbidden,
          log := ["Couldn't handle this token: " ++ err.Error], served := none }
  | (token, none) => serveNext next w r token []

/-! ## Claims -/

/-- The struct `jwt.StandardClaims` (golang-jwt v4), with its JSON names
aud, exp, jti, iat, iss, nbf, sub. -/
structure StandardClaims where
  Audience : String
  ExpiresAt : Int
  Id : String
  IssuedAt : Int
  Issuer : String
  NotBefore : Int
  Subject : String
deriving DecidableEq, Repr

/-- The struct `claimsData`; `int64` and `int` fields hold 64-bit integers. -/
structure claimsData where
  UserID : Int
  CompositeUserId : String
  Platform : String
  Scope : String
  Role : Int
  LID : Int
  StandardClaims : StandardClaims
deriving DecidableEq, Repr

/-- The value `new(claimsData)` points to: every field zero. -/
def claimsData.zero : claimsData :=
  { UserID := 0, CompositeUserId := "", Platform := "", Scope := "", Role := 0, LID := 0,
    StandardClaims := { Audience := "", ExpiresAt := 0, Id := "", IssuedAt := 0, Issuer := "",
                        NotBefore := 0, Subject := "" } }

/-- The word `UnmarshalTypeError` uses for the kind of a JSON value. -/
def JSON.kind : JSON → String
  | JSON.null => "null"
  | JSON.bool _ => "bool"
  | JSON.num _ => "number"
  | JSON.str _ => "string"
  | JSON.arr _ => "array"
  | JSON.obj _ => "object"

/-- The `UnmarshalTypeError` for a value, described by `value`, that does not
fit a field. -/
def unmarshalTypeError (value field goType : String) : GoError :=
  errorsNew ("json: cannot unmarshal " ++ value ++ " into Go struct field claimsData." ++ field
    ++ " of type " ++ goType)

/-- Decoding into a `string` field: null leaves the field as it is. -/
def decodeString (field : String) (cur : String) (v : JSON) : Except GoError String :=
  match v with
  | JSON.null => Except.ok cur
  | JSON.str s => Except.ok s
  | _ => Except.error (unmarshalTypeError v.kind field "string")

/-- Decoding into an `int64` (or 64-bit `int`) field: the literal must be an
integer literal within the 64-bit range; null leaves the field as it is.  The
error names the number with its text (left out for a literal with a fraction or
exponent). -/
def decodeInt64 (field goType : String) (cur : Int) (v : JSON) : Except GoError Int :=
  match v with
  | JSON.null => Except.ok cur
  | JSON.num (NumLit.int n) =>
    if -9223372036854775808 ≤ n ∧ n ≤ 9223372036854775807 then Except.ok n
    else Except.error (unmarshalTypeError ("number " ++ toString n) field goType)
  | _ => Except.error (unmarshalTypeError v.kind field goType)

/-- The JSON names of the fields of `claimsData`, embedded struct included. -/
def claimsFieldNames : List String :=
  ["uid", "cid", "ptf", "scope", "rle", "lid", "aud", "exp", "jti", "iat", "iss", "nbf", "sub"]

/-- Simple case folding of one character as far as it can meet an ASCII
letter: lower case to upper case, and the two non-ASCII characters that fold
to `S` and `K`. -/
def foldChar (c : Char) : Char :=
  if 'a' ≤ c ∧ c ≤ 'z' then Char.ofNat (c.toNat - 32)
  else if c = Char.ofNat 0x17F then 'S'
  else if c = Char.ofNat 0x212A then 'K'
  else c

/-- The folded form of an object key used for case-insensitive field lookup. -/
def foldName (s : String) : List Char := s.data.map foldChar

/-- The struct field an object key decodes into: the field with exactly this
name, else the first one equal to it under case folding. -/
def findField (key : String) : Option String :=
  if claimsFieldNames.contains key then some key
  else claimsFieldNames.find? (fun n => foldName n == foldName key)

/-- Decoding of one value into the named field of `claimsData`. -/
def setField (c : claimsData) (field : String) (v : JSON) : Except GoError claimsData :=
  let sc := c.StandardClaims
  if field = "uid" then (decodeInt64 field "int64" c.UserID v).map (fun x => { c with UserID := x })
  else if field = "cid" then
    (decodeString field c.CompositeUserId v).map (fun x => { c with CompositeUserId := x })
  else if field = "ptf" then (decodeString field c.Platform v).map (fun x => { c with Platform := x })
  else if field = "scope" then (decodeString field c.Scope v).map (fun x => { c with Scope := x })
  else if field = "rle" then (decodeInt64 field "int" c.Role v).map (fun x => { c with Role := x })
  else if field = "lid" then (decodeInt64 field "int" c.LID v).map (fun x => { c with LID := x })
  else if field = "aud" then
    (decodeString field sc.Audience v).map (fun x => { c with StandardClaims := { sc with Audience := x } })
  else if field = "exp" then
    (decodeInt64 field "int64" sc.ExpiresAt v).map
      (fun x => { c with StandardClaims := { sc with ExpiresAt := x } })
  else if field = "jti" then
    (decodeString field sc.Id v).map (fun x => { c with StandardClaims := { sc with Id := x } })
  else if field = "iat" then
    (decodeInt64 field "int64" sc.IssuedAt v).map
      (fun x => { c with StandardClaims := { sc with IssuedAt := x } })
  else if field = "iss" then
    (decodeString field sc.Issuer v).map (fun x => { c with StandardClaims := { sc with Issuer := x } })
  else if field = "nbf" then
    (decodeInt64 field "int64" sc.NotBefore v).map
      (fun x => { c with StandardClaims := { sc with NotBefore := x } })
  else if field = "sub" then
    (decodeString field sc.Subject v).map (fun x => { c with StandardClaims := { sc with Subject := x } })
  else Except.ok c

/-- The members of an object decoded one after the other; a key without a
field is skipped. -/
def unmarshalMembers (c : claimsData) : List (String × JSON) → Except GoError claimsData
  | [] => Except.ok c
  | (k, v) :: ms =>
    match findField k with
    | none => unmarshalMembers c ms
    | some field =>
      match setField c field v with
      | Except.error e => Except.error e
      | Except.ok c2 => unmarshalMembers c2 ms

/-- The call `json.Unmarshal(cd, c)` with `c` a `*claimsData`. -/
def UnmarshalClaims (cd : JSON) (c : claimsData) : Except GoError claimsData :=
  match cd with
  | JSON.null => Except.ok c
  | JSON.obj ms => unmarshalMembers c ms
  | v => Except.error (errorsNew ("json: cannot unmarshal " ++ v.kind
      ++ " into Go value of type auth.claimsData"))

/-- The function `ClaimsFromCtx(ctx)`.  The unchecked type assertion
`ctx.Value(jwtKeyName).(*jwt.Token)` panics on a value of another type. -/
def ClaimsFromCtx (ctx : Context) : Outcome (Except GoError claimsData) :=
  match ctx.Value jwtKeyName with
  | none => Outcome.ret (Except.error (errorsNew "token not found"))
  | some (CtxVal.other goType) =>
    Outcome.panic ("interface conversion: interface {} is " ++ goType ++ ", not *jwt.Token")
  | some (CtxVal.token none) => Outcome.ret (Except.error (errorsNew "token not found"))
  | some (CtxVal.token (some token)) =>
    if !token.Valid then Outcome.ret (Except.error (errorsNew "invalid token"))
    else
      match Marshal (Iface.map token.Claims) with
      | Except.error _ => Outcome.ret (Except.error (errorsNew "invalid token"))
      | Except.ok cd =>
        match UnmarshalClaims cd claimsData.zero with
        | Except.error err => Outcome.ret (Except.error err)
        | Except.ok c => Outcome.ret (Except.ok c)

/-! ## Package service -/

/-- The dynamic type of an error returned by the fabric-gateway contract: the
four types `handleError` knows, or any other Go type. -/
inductive ErrKind where
  | EndorseError
  | SubmitError
  | CommitStatusError
  | CommitError
  | other (goType : String)
deriving DecidableEq, Repr

/-- The message `gateway.ErrorDetail` carried in a gRPC status. -/
structure ErrorDetail where
  Address : String
  MspId : String
  Message : String
deriving DecidableEq, Repr

/-- An error returned by `SubmitTransaction` or `EvaluateTransaction`, with what
`handleError` reads from it: the dynamic type, the `TransactionID` field,
`status.Code(err)`, the `Code` field of a `CommitError`, the text of
`Error()`, whether `errors.Is(err, context.DeadlineExceeded)` holds, and the
details of `status.Convert(err)` (`none` for a detail of another type). -/
structure BackendError where
  kind : ErrKind
  TransactionID : String
  statusCode : Nat
  Code : Int
  Error : String
  IsDeadlineExceeded : Bool
  Details : List (Option ErrorDetail)
deriving DecidableEq, Repr

/-- The method `String()` of `codes.Code` (package google.golang.org/grpc/codes),
which the verb `%v` prints. -/
def codeString (c : Nat) : String :=
  match c with
  | 0 => "OK"
  | 1 => "Canceled"
  | 2 => "Unknown"
  | 3 => "InvalidArgument"
  | 4 => "DeadlineExceeded"
  | 5 => "NotFound"
  | 6 => "AlreadyExists"
  | 7 => "PermissionDenied"
  | 8 => "ResourceExhausted"
  | 9 => "FailedPrecondition"
  | 10 => "Aborted"
  | 11 => "OutOfRange"
  | 12 => "Unimplemented"
  | 13 => "Internal"
  | 14 => "Unavailable"
  | 15 => "DataLoss"
  | 16 => "Unauthenticated"
  | n => "Code(" ++ toString n ++ ")"

/-- The line `handleError` prints for an error of one of the four known types;
`none` for any other type (the `default` branch). -/
def errorReport (err : BackendError) : Option String :=
  match err.kind with
  | ErrKind.EndorseError =>
    some ("Endorse error for transaction " ++ err.TransactionID ++ " with gRPC status "
      ++ codeString err.statusCode ++ ": " ++ err.Error ++ "\n")
  | ErrKind.SubmitError =>
    some ("Submit error for transaction " ++ err.TransactionID ++ " with gRPC status "
      ++ codeString err.statusCode ++ ": " ++ err.Error ++ "\n")
  | ErrKind.CommitStatusError =>
    if err.IsDeadlineExceeded then
      some ("Timeout waiting for transaction " ++ err.TransactionID ++ " commit status: " ++ err.Error)
    else
      some ("Error obtaining commit status for transaction " ++ err.TransactionID
        ++ " with gRPC status " ++ codeString err.statusCode ++ ": " ++ err.Error ++ "\n")
  | ErrKind.CommitError =>
    some ("Transaction " ++ err.TransactionID ++ " failed to commit with status "
      ++ toString err.Code ++ ": " ++ err.Error ++ "\n")
  | ErrKind.other _ => none

/-- The lines printed for the details of the gRPC status: one per
`*gateway.ErrorDetail`, other details are skipped. -/
def detailLines : List (Option ErrorDetail) → List String
  | [] => []
  | some d :: ds =>
    ("- address: " ++ d.Address ++ ", mspId: " ++ d.MspId ++ ", message: " ++ d.Message ++ "\n")
      :: detailLines ds
  | none :: ds => detailLines ds

/-- The Go name of the dynamic type, as the verb `%T` prints it. -/
def ErrKind.goType : ErrKind → String
  | ErrKind.EndorseError => "*client.EndorseError"
  | ErrKind.SubmitError => "*client.SubmitError"
  | ErrKind.CommitStatusError => "*client.CommitStatusError"
  | ErrKind.CommitError => "*client.CommitError"
  | ErrKind.other t => t

/-- The method `handleError(tag, err)`: what it prints to standard output, and
whether it returns or panics.  The deferred `Println` runs in both cases. -/
def handleError (tag : String) (err : BackendError) : List String × Outcome Unit :=
  let first := tag ++ " ---\n"
  let last := "--- " ++ tag ++ "\n"
  match errorReport err with
  | none =>
    ([first, last],
      Outcome.panic ("unexpected error type " ++ err.kind.goType ++ ": " ++ err.Error))
  | some report =>
    let details := err.Details
    if 0 < details.length then
      ([first, report, "Error Details:\n"] ++ detailLines details ++ [last], Outcome.ret ())
    else
      ([first, report, last], Outcome.ret ())

/-- A failed `json.Unmarshal`: the error, and the offset when it is a
`*json.SyntaxError`. -/
structure JsonError where
  err : GoError
  syntaxOffset : Option Int
deriving DecidableEq, Repr

/-- The struct `RequestBody` of package handler. -/
structure RequestBody where
  Data : String
deriving DecidableEq, Repr

/-- The contract handle and the library functions the service and the handlers
call: the two transaction calls of `*client.Contract`; `unmarshalMap`, which is
`json.Unmarshal` into a `map[string]any` (`none` is the nil map that the
document `null` leaves); `decodeBody`, which is `json.NewDecoder(r.Body).Decode`
into a `RequestBody`; and `fmtQ`, the rendering of bytes with the verb `%q`. -/
structure Deps where
  SubmitTransaction : String → List String → Except BackendError Bytes
  EvaluateTransaction : String → List String → Except BackendError Bytes
  unmarshalMap : Bytes → Except JsonError (Option GoMap)
  decodeBody : String → Except GoError RequestBody
  fmtQ : Bytes → String

/-- A call made on the contract handle. -/
inductive BackendCall where
  | submit (name : String) (args : List String)
  | evaluate (name : String) (args : List String)
deriving DecidableEq, Repr

/-- The error a service operation returns: the backend error unchanged, or the
decoding error. -/
inductive SvcError where
  | backend (e : BackendError)
  | decode (e : GoError)
deriving DecidableEq, Repr

/-- The text of `Error()`. -/
def SvcError.Error : SvcError → String
  | SvcError.backend e => e.Error
  | SvcError.decode e => e.Error

/-- One run of a service operation: the calls made on the contract, the lines
written to standard output and to the log, and the returned `(any, error)`
pair or the panic. -/
structure ServiceRun where
  calls : List BackendCall
  stdout : List String
  log : List String
  result : Outcome (Except SvcError Iface)

/-- The error branch shared by the service operations: `handleError`, then
`return nil, err`. -/
def failWith (calls : List BackendCall) (tag : String) (err : BackendError) : ServiceRun :=
  match handleError tag err with
  | (out, Outcome.panic msg) => { calls := calls, stdout := out, log := [], result := Outcome.panic msg }
  | (out, Outcome.ret _) =>
    { calls := calls, stdout := out, log := [],
      result := Outcome.ret (Except.error (SvcError.backend err)) }

/-- The Go value of a decoded `map[string]any`: the nil map encodes as `null`. -/
def ifaceOfMap : Option GoMap → Iface
  | some m => Iface.map m
  | none => Iface.nil

/-- The decoding block shared by the service operations: `json.Unmarshal` of the
payload into a map, with the three log lines on failure. -/
def decodeResult (d : Deps) (calls : List BackendCall) (res : Bytes) : ServiceRun :=
  match d.unmarshalMap res with
  | Except.error e =>
    let l1 := "error decoding response: " ++ e.err.Error
    let l2 := match e.syntaxOffset with
      | some off => ["syntax error at byte offset " ++ toString off]
      | none => []
    { calls := calls, stdout := [], log := [l1] ++ l2 ++ ["response: " ++ d.fmtQ res],
      result := Outcome.ret (Except.error (SvcError.decode e.err)) }
  | Except.ok result =>
    { calls := calls, stdout := [], log := [], result := Outcome.ret (Except.ok (ifaceOfMap result)) }

/-- The method `Service.GetAllAssets`. -/
def GetAllAssets (d : Deps) : ServiceRun :=
  match d.EvaluateTransaction "GetAllAssets" [] with
  | Except.error err =>
    failWith [BackendCall.evaluate "GetAllAssets" []] "GetAllAssets:EvaluateTransaction err" err
  | Except.ok res =>
    { calls := [BackendCall.evaluate "GetAllAssets" []], stdout := [], log := [],
      result := Outcome.ret (Except.ok (Iface.bytes res)) }

/-- The method `Service.ReadAssetByID`. -/
def ReadAssetByID (d : Deps) (id : String) : ServiceRun :=
  match d.EvaluateTransaction "ReadAsset" [id] with
  | Except.error err =>
    failWith [BackendCall.evaluate "ReadAsset" [id]] "ReadAssetByID:EvaluateTransaction err" err
  | Except.ok res =>
    match d.unmarshalMap res with
    | Except.error e =>
      { calls := [BackendCall.evaluate "ReadAsset" [id]], stdout := [], log := [],
        result := Outcome.ret (Except.error (SvcError.decode e.err)) }
    | Except.ok info =>
      { calls := [BackendCall.evaluate "ReadAsset" [id]], stdout := [], log := [],
        result := Outcome.ret (Except.ok (ifaceOfMap info)) }

/-- The method `Service.CreateAsset`. -/
def CreateAsset (d : Deps) (data : String) : ServiceRun :=
  match d.SubmitTransaction "CreateAsset" [data] with
  | Except.error err =>
    failWith [BackendCall.submit "CreateAsset" [data]] "SubmitTransaction:CreateAsset" err
  | Except.ok res => decodeResult d [BackendCall.submit "CreateAsset" [data]] res

/-- The method `Service.DeleteAsset`. -/
def DeleteAsset (d : Deps) (id : String) : ServiceRun :=
  match d.SubmitTransaction "DeleteAsset" [id] with
  | Except.error err =>
    failWith [BackendCall.submit "DeleteAsset" [id]] "SubmitTransaction:DeleteAsset err:" err
  | Except.ok res =>
    { calls := [BackendCall.submit "DeleteAsset" [id]], stdout := [], log := [],
      result := Outcome.ret (Except.ok (Iface.bytes res)) }

/-- The method `Service.VoidAsset`; the submitted function is named `VodataAsset`. -/
def VoidAsset (d : Deps) (data : String) : ServiceRun :=
  match d.SubmitTransaction "VodataAsset" [data] with
  | Except.error err =>
    failWith [BackendCall.submit "VodataAsset" [data]] "SubmitTransaction:VoidAsset err:" err
  | Except.ok res => decodeResult d [BackendCall.submit "VodataAsset" [data]] res

/-- The method `Service.ReleaseAsset`. -/
def ReleaseAsset (d : Deps) (data : String) : ServiceRun :=
  match d.SubmitTransaction "ReleaseAsset" [data] with
  | Except.error err =>
    failWith [BackendCall.submit "ReleaseAsset" [data]] "SubmitTransaction:ReleaseAsset err:" err
  | Except.ok res => decodeResult d [BackendCall.submit "ReleaseAsset" [data]] res

/-- The method `Service.ExpireAsset`. -/
def ExpireAsset (d : Deps) (data : String) : ServiceRun :=
  match d.SubmitTransaction "ExpireAsset" [data] with
  | Except.error err =>
    failWith [BackendCall.submit "ExpireAsset" [data]] "SubmitTransaction:ExpireAsset err:" err
  | Except.ok res => decodeResult d [BackendCall.submit "ExpireAsset" [data]] res

/-! ## Package handler -/

/-- One run of a handler: the response writer afterwards, the calls made on
the contract, the output, and the panic message if the handler panicked. -/
structure HandlerRun where
  w : ResponseWriter
  calls : List BackendCall
  stdout : List String
  log : List String
  panicked : Option String

/-- The function `writeJson(w, code, data)`. -/
def writeJson (w : ResponseWriter) (code : Nat) (data : Iface) : ResponseWriter × Option GoError :=
  let w := w.HeaderSet "content-type" "application/json"
  let w := w.WriteHeader code
  w.Encode data

/-- The literal `Map{"code": code, "err": msg}`. -/
def errMap (code : Int) (msg : String) : Iface :=
  Iface.map [("code", Iface.int code), ("err", Iface.string msg)]

/-- The run of a handler that answers without calling the service. -/
def respondOnly (w : ResponseWriter) : HandlerRun :=
  { w := w, calls := [], stdout := [], log := [], panicked := none }

/-- The tail shared by the five handlers that answer a service error with
`Map{"code": 2, "err": msg}`: the `if err != nil` block and the final `writeJson`. -/
def respond (w : ResponseWriter) (s : ServiceRun) (msg : String) : HandlerRun :=
  match s.result with
  | Outcome.panic m =>
    { w := w, calls := s.calls, stdout := s.stdout, log := s.log, panicked := some m }
  | Outcome.ret (Except.error _) =>
    { w := (writeJson w StatusBadRequest (errMap 2 msg)).1, calls := s.calls, stdout := s.stdout,
      log := s.log, panicked := none }
  | Outcome.ret (Except.ok res) =>
    { w := (writeJson w StatusOK res).1, calls := s.calls, stdout := s.stdout, log := s.log,
      panicked := none }

/-- The method `Handler.HandleAddAsset`. -/
def HandleAddAsset (d : Deps) (w : ResponseWriter) (r : Request) : HandlerRun :=
  match d.decodeBody r.Body with
  | Except.error _ => respondOnly (writeJson w StatusBadRequest (errMap 1 "malformed request")).1
  | Except.ok body => respond w (CreateAsset d body.Data) "unable to create contract"

/-- The method `Handler.HandleVoidAsset`. -/
def HandleVoidAsset (d : Deps) (w : ResponseWriter) (r : Request) : HandlerRun :=
  match d.decodeBody r.Body with
  | Except.error _ => respondOnly (writeJson w StatusBadRequest (errMap 1 "malformed request")).1
  | Except.ok body => respond w (VoidAsset d body.Data) "unable to void contract"

/-- The method `Handler.HandleReleaseAsset`. -/
def HandleReleaseAsset (d : Deps) (w : ResponseWriter) (r : Request) : HandlerRun :=
  match d.decodeBody r.Body with
  | Except.error _ => respondOnly (writeJson w StatusBadRequest (errMap 1 "malformed request")).1
  | Except.ok body => respond w (ReleaseAsset d body.Data) "unable to release contract"

/-- The method `Handler.HandleExpireAsset`. -/
def HandleExpireAsset (d : Deps) (w : ResponseWriter) (r : Request) : HandlerRun :=
  match d.decodeBody r.Body with
  | Except.error _ => respondOnly (writeJson w StatusBadRequest (errMap 1 "malformed request")).1
  | Except.ok body => respond w (ExpireAsset d body.Data) "unable to expire contract"

/-- The method `Handler.HandleGetAsset`: the body is decoded first, then the
query parameter `id` is read. -/
def HandleGetAsset (d : Deps) (w : ResponseWriter) (r : Request) : HandlerRun :=
  match d.decodeBody r.Body with
  | Except.error _ => respondOnly (writeJson w StatusBadRequest (errMap 1 "malformed request")).1
  | Except.ok _ =>
    let id := r.Query.Get "id"
    if id = "" then respondOnly (writeJson w StatusBadRequest (errMap 3 "id is empty")).1
    else
      let s := ReadAssetByID d id
      match s.result with
      | Outcome.panic m =>
        { w := w, calls := s.calls, stdout := s.stdout, log := s.log, panicked := some m }
      | Outcome.ret (Except.error err) =>
        let w := w.WriteHeader StatusBadRequest
        { w := (w.Encode (errMap 2 ("unable to read contract with id: " ++ id))).1,
          calls := s.calls, stdout := s.stdout, log := s.log ++ [err.Error], panicked := none }
      | Outcome.ret (Except.ok res) =>
        { w := (writeJson w StatusOK res).1, calls := s.calls, stdout := s.stdout, log := s.log,
          panicked := none }

/-- The method `Handler.HandleGetAllAssets`. -/
def HandleGetAllAssets (d : Deps) (w : ResponseWriter) (r : Request) : HandlerRun :=
  match d.decodeBody r.Body with
  | Except.error _ => respondOnly (writeJson w StatusBadRequest (errMap 1 "malformed request")).1
  | Except.ok _ => respond w (GetAllAssets d) "unable to get all contracts"

/-! ## The jwt parser as the program relies on it -/

/-- What the program relies on from `jwt.Parse` (golang-jwt v4,
`Parser.ParseWithClaims`): the returned error is nil exactly when the returned
token is non-nil with `Valid` set, and `Valid` is set only after the key
function has returned a key for a token with this method and header. -/
structure LawfulParse (parse : JwtParse) : Prop where
  nil_error_iff_valid : ∀ s kf, (parse s kf).2 = none ↔ ∃ t, (parse s kf).1 = some t ∧ t.Valid = true
  valid_has_key : ∀ s kf t, (parse s kf).1 = some t → t.Valid = true →
    ∃ t0 k, t0.Method = t.Method ∧ t0.Header = t.Header ∧ kf t0 = Except.ok k

/-- The outcome of token validation that counts as a valid token: no error, a
non-nil token, and its `Valid` flag set. -/
def ValidResult (res : Option Token × Option GoError) : Prop :=
  res.2 = none ∧ ∃ t, res.1 = some t ∧ t.Valid = true

/-- The token a sample parser reads from a token string: `hs` declares HS256,
`rs` declares RS256, anything else has no readable segments; `claims` is the
decoded claims segment. -/
def sampleUnverified (claims : GoMap) (s : String) : Option Token :=
  if s = "hs" then
    some { Raw := s, Method := some (SigningMethod.HMAC "HS256"),
           Header := [("alg", Iface.string "HS256")], Claims := claims, Signature := "", Valid := false }
  else if s = "rs" then
    some { Raw := s, Method := some (SigningMethod.RSA "RS256"),
           Header := [("alg", Iface.string "RS256")], Claims := claims, Signature := "", Valid := false }
  else none

/-- A sample parser with the flow of `Parser.ParseWithClaims`: read the
segments, ask the key function, and mark the token valid when a key came back. -/
def sampleParse (claims : GoMap) : JwtParse := fun s kf =>
  match sampleUnverified claims s with
  | none =>
    (none, some { Error := "token contains an invalid number of segments", IsTokenMalformed := true,
                  IsTokenExpired := false, IsTokenNotValidYet := false })
  | some t =>
    match kf t with
    | Except.error e => (some { t with Valid := false }, some (errorsNew e.Error))
    | Except.ok _ => (some { t with Valid := true }, none)

/-- The claims map `jwt.Parse` holds for a token issued with the six claims:
the claims segment is decoded with `encoding/json` into a
`map[string]interface{}`, so every number becomes the nearest float64. -/
def issuedClaims (uid : Int) (cid ptf scope : String) (rle lid : Int) : GoMap :=
  [("uid", Iface.float64 (float64OfInt uid)), ("cid", Iface.string cid), ("ptf", Iface.string ptf),
   ("scope", Iface.string scope), ("rle", Iface.float64 (float64OfInt rle)),
   ("lid", Iface.float64 (float64OfInt lid))]

/-- A `%v` rendering for the sample runs: strings print as they are. -/
def sampleFmtV : Iface → String
  | Iface.string s => s
  | _ => "<nil>"

/-- A request that carries only the given `Authorization` header values. -/
def requestWithAuth (vals : List String) : Request :=
  { Method := "GET", Header := [("Authorization", vals)], Query := [], Body := "", ctx := [] }

/-- The response writer after the rejection of the middleware. -/
def forbidden (w : ResponseWriter) : ResponseWriter :=
  (w.HeaderSet "content-type" "application/json").WriteHeader StatusForbidden

/-- The envelope `{"code": code, "err": msg}` as a JSON document. -/
def envelope (code : Int) (msg : String) : JSON :=
  JSON.obj [("code", JSON.num (NumLit.int code)), ("err", JSON.str msg)]

/-- The dynamic type of the error is one of the four ledger-phase failures. -/
def ErrKind.isLedgerPhase : ErrKind → Bool
  | ErrKind.EndorseError => true
  | ErrKind.SubmitError => true
  | ErrKind.CommitStatusError => true
  | ErrKind.CommitError => true
  | ErrKind.other _ => false

/-- A sample body decoder for JSON text: the empty body is an unexpected end of
input, `null` and the empty object leave `Data` empty, an object with the single
member `data` yields its string (taken literally, without escapes), and anything
else is a syntax error. -/
def sampleDecodeBody (body : String) : Except GoError RequestBody :=
  let opening := "\x7b\"data\":\"".data
  let closing := "\"\x7d".data
  let rest := body.data.drop opening.length
  if body = "" then Except.error (errorsNew "EOF")
  else if body = "null" then Except.ok { Data := "" }
  else if body = "\x7b\x7d" then Except.ok { Data := "" }
  else if opening.isPrefixOf body.data && closing.isSuffixOf rest then
    Except.ok { Data := ⟨rest.take (rest.length - closing.length)⟩ }
  else Except.error (errorsNew "invalid character looking for beginning of value")

/-- A sample payload decoder that knows three payloads: `null` (the nil map),
the empty object `{}`, and the object `{"id":"asset007"}`.  The empty payload
is an unexpected end of input, anything else counts as a syntax error. -/
def sampleUnmarshalMap (res : Bytes) : Except JsonError (Option GoMap) :=
  if res = [] then
    Except.error { err := errorsNew "unexpected end of JSON input", syntaxOffset := some 0 }
  else if res = [110, 117, 108, 108] then Except.ok none
  else if res = [123, 125] then Except.ok (some [])
  else if res = [123, 34, 105, 100, 34, 58, 34, 97, 115, 115, 101, 116, 48, 48, 55, 34, 125] then
    Except.ok (some [("id", Iface.string "asset007")])
  else
    Except.error { err := errorsNew "invalid character looking for beginning of value",
                   syntaxOffset := some 1 }

/-- Sample dependencies: a contract that answers every call with `answer`, and
the two sample decoders. -/
def sampleDeps (answer : Except BackendError Bytes) : Deps :=
  { SubmitTransaction := fun _ _ => answer,
    EvaluateTransaction := fun _ _ => answer,
    unmarshalMap := sampleUnmarshalMap,
    decodeBody := sampleDecodeBody,
    fmtQ := fun _ => "" }

/-- A sample request with the given query values and body. -/
def sampleRequest (method : String) (query : Values) (body : String) : Request :=
  { Method := method, Header := [], Query := query, Body := body, ctx := [] }

/-- A sample backend error of the given dynamic type. -/
def sampleError (kind : ErrKind) (deadline : Bool) : BackendError :=
  { kind := kind, TransactionID := "tx1", statusCode := 10, Code := 11, Error := "rejected",
    IsDeadlineExceeded := deadline, Details := [] }

/-- The error `SubmitTransaction` returns when the wait for the commit status
runs into the commit-status timeout: a `*client.CommitStatusError` around the
gRPC status error of code `DeadlineExceeded` (code 4) with the text `msg`.  A
gRPC status error is not `context.DeadlineExceeded` and does not unwrap to it,
so `errors.Is(err, context.DeadlineExceeded)` is false for this error. -/
def commitStatusTimeout (txID msg : String) : BackendError :=
  { kind := ErrKind.CommitStatusError, TransactionID := txID, statusCode := 4, Code := 0,
    Error := msg, IsDeadlineExceeded := false, Details := [] }

/-! ## Theorems -/

theorem sampleParse_lawful (claims : GoMap) : LawfulParse (sampleParse claims) := by
  constructor
  · intro s kf
    unfold sampleParse
    cases hu : sampleUnverified claims s with
    | none => simp
    | some t =>
      cases hk : kf t with
      | error e => simp [hk]
      | ok k => simp [hk]
  · intro s kf t
    unfold sampleParse
    cases hu : sampleUnverified claims s with
    | none => simp
    | some t1 =>
      cases hk : kf t1 with
      | error e =>
        simp only [hk, Option.some.injEq]
        intro h1 h2
        rw [← h1] at h2
        simp at h2
      | ok k =>
        simp only [hk, Option.some.injEq]
        intro h1 _
        refine ⟨t1, k, ?_, ?_, hk⟩
        · rw [← h1]
        · rw [← h1]

/-- The header name the program writes is stored as `Content-Type`. -/
theorem canonicalKey_contentType : CanonicalMIMEHeaderKey "content-type" = "Content-Type" := by
  decide

theorem status_writeHeader (w : ResponseWriter) (code : Nat) (h : w.status = none) :
    (w.WriteHeader code).status = some code := by
  simp [ResponseWriter.WriteHeader, h]

theorem status_headerSet (w : ResponseWriter) (k v : String) :
    (w.HeaderSet k v).status = w.status := by
  unfold ResponseWriter.HeaderSet
  cases h : w.status <;> simp [h]

theorem body_headerSet (w : ResponseWriter) (k v : String) :
    (w.HeaderSet k v).body = w.body := by
  unfold ResponseWriter.HeaderSet
  cases h : w.status <;> simp

theorem body_writeHeader (w : ResponseWriter) (code : Nat) :
    (w.WriteHeader code).body = w.body := by
  unfold ResponseWriter.WriteHeader
  cases h : w.status <;> simp

theorem forbidden_status (w : ResponseWriter) (h : w.status = none) :
    (forbidden w).status = some 403 := by
  unfold forbidden
  rw [status_writeHeader _ _ (by rw [status_headerSet]; exact h)]
  rfl

/-- What the middleware does on each result of `TokenFromRequest`: it rejects
exactly when there is an error and the token is nil or not marked valid. -/
theorem authMiddleware_cases (jwtParse : JwtParse) (fmtV : Iface → String) (jwtKey : String)
    (next : Handler) (w : ResponseWriter) (r : Request) :
    ((AuthMiddleware jwtParse fmtV jwtKey next w r).w = forbidden w
      ∧ (AuthMiddleware jwtParse fmtV jwtKey next w r).served = none
      ∧ (TokenFromRequest jwtParse fmtV jwtKey r).2 ≠ none
      ∧ ∀ t, (TokenFromRequest jwtParse fmtV jwtKey r).1 = some t → t.Valid = false)
    ∨ ((AuthMiddleware jwtParse fmtV jwtKey next w r).served
          = some (r.WithContext (r.ctx.WithValue jwtKeyName
              (CtxVal.token (TokenFromRequest jwtParse fmtV jwtKey r).1)))
      ∧ ((TokenFromRequest jwtParse fmtV jwtKey r).2 = none
          ∨ ∃ t, (TokenFromRequest jwtParse fmtV jwtKey r).1 = some t ∧ t.Valid = true)) := by
  unfold AuthMiddleware
  rcases hres : TokenFromRequest jwtParse fmtV jwtKey r with ⟨tok, err⟩
  cases err with
  | none => right; simp [serveNext]
  | some e =>
    cases tok with
    | none => left; simp [forbidden]
    | some t =>
      by_cases hv : t.Valid = true
      · right; simp [serveNext, hv]
      · left
        simp only [Bool.not_eq_true] at hv
        simp only [hv]
        by_cases h1 : e.IsTokenMalformed = true
        · simp [h1, forbidden, hv]
        · by_cases h2 : (e.IsTokenExpired || e.IsTokenNotValidYet) = true
          · simp [h1, h2, forbidden, hv]
          · simp [h1, h2, forbidden, hv]

/-- C1. Fail-closed auth gate: with `jwt.Parse` behaving as the library does, every
result of `TokenFromRequest` other than a valid token (an error, a nil token, or
`Valid` false) makes `AuthMiddleware` write 403 and not call the downstream
handler; the downstream handler is called only for a valid token, and then with
the token attached to the request context. -/
theorem authMiddleware_fail_closed (jwtParse : JwtParse) (hp : LawfulParse jwtParse)
    (fmtV : Iface → String) (jwtKey : String) (next : Handler) (w : ResponseWriter) (r : Request) :
    (¬ ValidResult (TokenFromRequest jwtParse fmtV jwtKey r) →
        (AuthMiddleware jwtParse fmtV jwtKey next w r).w = forbidden w
        ∧ (w.status = none → (AuthMiddleware jwtParse fmtV jwtKey next w r).w.status = some 403)
        ∧ (AuthMiddleware jwtParse fmtV jwtKey next w r).served = none)
    ∧ (ValidResult (TokenFromRequest jwtParse fmtV jwtKey r) →
        (AuthMiddleware jwtParse fmtV jwtKey next w r).served
          = some (r.WithContext (r.ctx.WithValue jwtKeyName
              (CtxVal.token (TokenFromRequest jwtParse fmtV jwtKey r).1))))
    ∧ ((AuthMiddleware jwtParse fmtV jwtKey next w r).served ≠ none →
        ValidResult (TokenFromRequest jwtParse fmtV jwtKey r)) := by
  have hlaw : (TokenFromRequest jwtParse fmtV jwtKey r).2 = none ↔
      ∃ t, (TokenFromRequest jwtParse fmtV jwtKey r).1 = some t ∧ t.Valid = true := by
    unfold TokenFromRequest
    simp only []
    split
    · simp
    · split
      · simp
      · exact hp.nil_error_iff_valid _ _
  rcases authMiddleware_cases jwtParse fmtV jwtKey next w r with ⟨hw, hs, he, _⟩ | ⟨hs, hv⟩
  · refine ⟨fun _ => ⟨hw, fun h0 => ?_, hs⟩, fun hvalid => absurd hvalid.1 he, fun hne => absurd hs hne⟩
    rw [hw]; exact forbidden_status w h0
  · have hvalid : ValidResult (TokenFromRequest jwtParse fmtV jwtKey r) := by
      rcases hv with h | h
      · exact ⟨h, hlaw.mp h⟩
      · exact ⟨hlaw.mpr h, h⟩
    exact ⟨fun hn => absurd hvalid hn, fun _ => hs, fun _ => hvalid⟩

/-- The sample request with a non-HMAC token is rejected and the one with an
HMAC token is forwarded. -/
theorem authMiddleware_fail_closed_witness :
    LawfulParse (sampleParse [])
    ∧ ¬ ValidResult (TokenFromRequest (sampleParse []) sampleFmtV "secret" (requestWithAuth ["Bearer rs"]))
    ∧ (AuthMiddleware (sampleParse []) sampleFmtV "secret" (fun w _ => w) ResponseWriter.new
        (requestWithAuth ["Bearer rs"])).w.status = some 403
    ∧ (AuthMiddleware (sampleParse []) sampleFmtV "secret" (fun w _ => w) ResponseWriter.new
        (requestWithAuth ["Bearer rs"])).served = none
    ∧ ValidResult (TokenFromRequest (sampleParse []) sampleFmtV "secret" (requestWithAuth ["Bearer hs"])) := by
  have hbad : ¬ ValidResult
      (TokenFromRequest (sampleParse []) sampleFmtV "secret" (requestWithAuth ["Bearer rs"])) := by
    intro h
    have h2 := h.1
    revert h2
    decide
  have hsome : (AuthMiddleware (sampleParse []) sampleFmtV "secret" (fun w _ => w) ResponseWriter.new
      (requestWithAuth ["Bearer hs"])).served.isSome = true := by
    decide
  have hgood : (AuthMiddleware (sampleParse []) sampleFmtV "secret" (fun w _ => w) ResponseWriter.new
      (requestWithAuth ["Bearer hs"])).served ≠ none := by
    intro h
    rw [h] at hsome
    cases hsome
  have hrs := (authMiddleware_fail_closed (sampleParse []) (sampleParse_lawful []) sampleFmtV "secret"
    (fun w _ => w) ResponseWriter.new (requestWithAuth ["Bearer rs"])).1 hbad
  have hhs := (authMiddleware_fail_closed (sampleParse []) (sampleParse_lawful []) sampleFmtV "secret"
    (fun w _ => w) ResponseWriter.new (requestWithAuth ["Bearer hs"])).2.2 hgood
  exact ⟨(sampleParse_lawful []), hbad, hrs.2.1 rfl, hrs.2.2, hhs⟩

/-- C2. A request without an `Authorization` value, or with one that does not start
with `Bearer `, gets a nil token and an error from `TokenFromRequest` whatever
the jwt parser, the `%v` rendering and the signing key are (parser and key
function are not consulted), and `AuthMiddleware` answers 403, logs nothing,
attaches nothing and does not call the downstream handler, whatever the parser
and the handler are. -/
theorem tokenFromRequest_without_bearer (jwtParse : JwtParse) (fmtV : Iface → String)
    (signKey : String) (next : Handler) (w : ResponseWriter) (r : Request)
    (h : r.Header.Get TokenHeader = ""
      ∨ stringsHasPrefix (r.Header.Get TokenHeader) bearerPfx = false) :
    (TokenFromRequest jwtParse fmtV signKey r = (none, some (errorsNew "missing header"))
      ∨ TokenFromRequest jwtParse fmtV signKey r = (none, some (errorsNew "invalid token prefix")))
    ∧ (∀ (p2 : JwtParse) (f2 : Iface → String) (k2 : String),
        TokenFromRequest p2 f2 k2 r = TokenFromRequest jwtParse fmtV signKey r)
    ∧ AuthMiddleware jwtParse fmtV signKey next w r
        = { w := forbidden w, log := [], served := none }
    ∧ (w.status = none → (AuthMiddleware jwtParse fmtV signKey next w r).w.status = some 403)
    ∧ (∀ (p2 : JwtParse) (f2 : Iface → String) (k2 : String) (next2 : Handler),
        AuthMiddleware p2 f2 k2 next2 w r = AuthMiddleware jwtParse fmtV signKey next w r) := by
  have same : ∀ (p : JwtParse) (f : Iface → String) (k : String),
      TokenFromRequest p f k r = TokenFromRequest jwtParse fmtV signKey r := by
    intro p f k
    unfold TokenFromRequest
    simp only []
    by_cases h0 : (r.Header.Get TokenHeader).utf8ByteSize = 0
    · simp [h0]
    · rcases h with h | h
      · rw [h] at h0; exact absurd rfl h0
      · simp [h0, h]
  have key : TokenFromRequest jwtParse fmtV signKey r = (none, some (errorsNew "missing header"))
      ∨ TokenFromRequest jwtParse fmtV signKey r
        = (none, some (errorsNew "invalid token prefix")) := by
    unfold TokenFromRequest
    simp only []
    by_cases h0 : (r.Header.Get TokenHeader).utf8ByteSize = 0
    · left; simp [h0]
    · right
      rcases h with h | h
      · rw [h] at h0; exact absurd rfl h0
      · simp [h0, h]
  have run : ∀ (p : JwtParse) (f : Iface → String) (k : String) (n : Handler),
      AuthMiddleware p f k n w r = { w := forbidden w, log := [], served := none } := by
    intro p f k n
    unfold AuthMiddleware
    rw [same p f k]
    rcases key with hk | hk <;> simp [hk, forbidden]
  refine ⟨key, same, run jwtParse fmtV signKey next, ?_, ?_⟩
  · intro h0
    rw [run jwtParse fmtV signKey next]
    exact forbidden_status w h0
  · intro p2 f2 k2 next2
    rw [run p2 f2 k2 next2, run jwtParse fmtV signKey next]

/-- The request `Authorization: Basic xyz` is rejected with 403 and not forwarded. -/
theorem tokenFromRequest_without_bearer_witness :
    stringsHasPrefix ((requestWithAuth ["Basic xyz"]).Header.Get TokenHeader) bearerPfx = false
    ∧ TokenFromRequest (sampleParse []) sampleFmtV "secret" (requestWithAuth ["Basic xyz"])
        = (none, some (errorsNew "invalid token prefix"))
    ∧ (AuthMiddleware (sampleParse []) sampleFmtV "secret" (fun w _ => w) ResponseWriter.new
        (requestWithAuth ["Basic xyz"])).w.status = some 403
    ∧ (AuthMiddleware (sampleParse []) sampleFmtV "secret" (fun w _ => w) ResponseWriter.new
        (requestWithAuth ["Basic xyz"])).served = none := by
  have hpre : stringsHasPrefix ((requestWithAuth ["Basic xyz"]).Header.Get TokenHeader) bearerPfx
      = false := by decide
  have h := tokenFromRequest_without_bearer (sampleParse []) sampleFmtV "secret" (fun w _ => w)
    ResponseWriter.new (requestWithAuth ["Basic xyz"]) (Or.inr hpre)
  refine ⟨hpre, ?_, h.2.2.2.1 rfl, ?_⟩
  · rcases h.1 with h1 | h1
    · have h2 := congrArg Prod.snd h1
      exact absurd h2 (by decide)
    · exact h1
  · rw [h.2.2.1]

/-- C3. For a token whose signing method is not an HMAC method the key function
returns the error `unexpected signing method: <alg>` and no key, whatever the
signature, the claims and the configured key are; so with `jwt.Parse` behaving as
the library does, such a token is never returned as valid by `TokenFromRequest`
and `AuthMiddleware` rejects the request. -/
theorem keyFunc_rejects_non_hmac (fmtV : Iface → String) (signKey : String) (token : Token)
    (hm : ∀ alg, token.Method ≠ some (SigningMethod.HMAC alg)) :
    keyFunc fmtV signKey token
      = Except.error (errorsNew ("unexpected signing method: " ++ fmtV (token.Header.index "alg")))
    ∧ (∀ k, keyFunc fmtV signKey token ≠ Except.ok k)
    ∧ ∀ (jwtParse : JwtParse), LawfulParse jwtParse → ∀ (r : Request) (e : Option GoError),
        TokenFromRequest jwtParse fmtV signKey r = (some token, e) →
        token.Valid = false ∧ e ≠ none
        ∧ ∀ (next : Handler) (w : ResponseWriter),
            (AuthMiddleware jwtParse fmtV signKey next w r).w = forbidden w
            ∧ (AuthMiddleware jwtParse fmtV signKey next w r).served = none := by
  have hkey : ∀ t : Token, t.Method = token.Method →
      keyFunc fmtV signKey t
        = Except.error (errorsNew ("unexpected signing method: " ++ fmtV (t.Header.index "alg"))) := by
    intro t ht
    unfold keyFunc
    rw [ht]
    cases hmeth : token.Method with
    | none => rfl
    | some m =>
      cases m with
      | HMAC alg => exact absurd hmeth (hm alg)
      | _ => rfl
  refine ⟨hkey token rfl, fun k hk => ?_, ?_⟩
  · rw [hkey token rfl] at hk; cases hk
  · intro jwtParse hp r e hres
    have hparse : ∃ s, jwtParse s (keyFunc fmtV signKey) = (some token, e) := by
      unfold TokenFromRequest at hres
      simp only [] at hres
      split at hres
      · cases hres
      · split at hres
        · cases hres
        · exact ⟨_, hres⟩
    obtain ⟨s, hs⟩ := hparse
    have hvalid : token.Valid = false := by
      cases hv : token.Valid with
      | false => rfl
      | true =>
        obtain ⟨t0, k, hm0, _, hk0⟩ := hp.valid_has_key s (keyFunc fmtV signKey) token
          (by rw [hs]) hv
        rw [hkey t0 hm0] at hk0
        cases hk0
    have herr : e ≠ none := by
      intro he
      have h1 := (hp.nil_error_iff_valid s (keyFunc fmtV signKey)).mp (by rw [hs]; exact he)
      obtain ⟨t, ht, htv⟩ := h1
      rw [hs] at ht
      simp only [Option.some.injEq] at ht
      rw [← ht, hvalid] at htv
      cases htv
    refine ⟨hvalid, herr, fun next w => ?_⟩
    rcases authMiddleware_cases jwtParse fmtV signKey next w r with ⟨hw, hsv, _, _⟩ | ⟨_, hv⟩
    · exact ⟨hw, hsv⟩
    · rw [hres] at hv
      rcases hv with h | ⟨t, ht, htv⟩
      · exact absurd h herr
      · simp only [Option.some.injEq] at ht
        rw [← ht, hvalid] at htv
        cases htv

/-- An RS256 token gets no key, and the sample parser's result for it is rejected. -/
theorem keyFunc_rejects_non_hmac_witness :
    (∀ alg, (some (SigningMethod.RSA "RS256") : Option SigningMethod) ≠ some (SigningMethod.HMAC alg))
    ∧ keyFunc sampleFmtV "secret"
        { Raw := "rs", Method := some (SigningMethod.RSA "RS256"),
          Header := [("alg", Iface.string "RS256")], Claims := [], Signature := "", Valid := false }
      = Except.error (errorsNew "unexpected signing method: RS256")
    ∧ (AuthMiddleware (sampleParse []) sampleFmtV "secret" (fun w _ => w) ResponseWriter.new
        (requestWithAuth ["Bearer rs"])).served = none := by
  have hm : ∀ alg, (some (SigningMethod.RSA "RS256") : Option SigningMethod)
      ≠ some (SigningMethod.HMAC alg) := by
    intro alg h
    cases h
  have h := keyFunc_rejects_non_hmac sampleFmtV "secret"
    { Raw := "rs", Method := some (SigningMethod.RSA "RS256"),
      Header := [("alg", Iface.string "RS256")], Claims := [], Signature := "", Valid := false } hm
  refine ⟨hm, ?_, ?_⟩
  · rw [h.1]; rfl
  · exact ((h.2.2 (sampleParse []) (sampleParse_lawful []) (requestWithAuth ["Bearer rs"])
      (some (errorsNew "unexpected signing method: RS256")) (by rfl)).2.2 (fun w _ => w)
      ResponseWriter.new).2

theorem bitLenAux_zero (fuel : Nat) : bitLenAux fuel 0 = 0 := by
  cases fuel <;> simp [bitLenAux]

theorem bitLenAux_lt (fuel : Nat) : ∀ n, n ≤ fuel → n < 2 ^ bitLenAux fuel n := by
  induction fuel with
  | zero => intro n hn; simp [bitLenAux]; omega
  | succ f ih =>
    intro n hn
    unfold bitLenAux
    by_cases h0 : n = 0
    · simp [h0]
    · simp only [h0, if_false]
      have h1 := ih (n / 2) (by omega)
      rw [pow_succ]
      omega

theorem bitLenAux_ge (fuel : Nat) : ∀ n, n ≤ fuel → 0 < n → 2 ^ (bitLenAux fuel n - 1) ≤ n := by
  induction fuel with
  | zero => intro n hn hpos; omega
  | succ f ih =>
    intro n hn hpos
    unfold bitLenAux
    have h0 : n ≠ 0 := by omega
    simp only [h0, if_false, Nat.add_sub_cancel]
    by_cases h2 : n / 2 = 0
    · rw [h2, bitLenAux_zero]
      simp
      omega
    · have h1 := ih (n / 2) (by omega) (by omega)
      have h3 : 0 < bitLenAux f (n / 2) := by
        by_contra hc
        have hz : bitLenAux f (n / 2) = 0 := by omega
        have := bitLenAux_lt f (n / 2) (by omega)
        rw [hz] at this
        omega
      obtain ⟨b, hb⟩ : ∃ b, bitLenAux f (n / 2) = b + 1 := ⟨bitLenAux f (n / 2) - 1, by omega⟩
      rw [hb] at h1 ⊢
      simp only [Nat.add_sub_cancel] at h1
      rw [pow_succ]
      omega

theorem bitLen_lt (n : Nat) : n < 2 ^ bitLen n := bitLenAux_lt n n (le_refl n)

theorem bitLen_ge (n : Nat) (h : 0 < n) : 2 ^ (bitLen n - 1) ≤ n := bitLenAux_ge n n (le_refl n) h

theorem bitLen_le_53 (n : Nat) (h : n < 2 ^ 53) : bitLen n ≤ 53 := by
  by_cases h0 : n = 0
  · subst h0; simp [bitLen, bitLenAux]
  · have h1 := bitLen_ge n (by omega)
    have h2 : 2 ^ (bitLen n - 1) < 2 ^ 53 := lt_of_le_of_lt h1 h
    have h3 := (Nat.pow_lt_pow_iff_right (by norm_num : 1 < 2)).mp h2
    omega

theorem roundToFloat64_small (n : Nat) (h : n < 2 ^ 53) : roundToFloat64 n = (n, 0) := by
  have hb := bitLen_le_53 n h
  unfold roundToFloat64
  have he : bitLen n - 53 = 0 := by omega
  simp [he, Nat.mod_one]

theorem nearestFloat64_small (n : Nat) (h : n ≤ 2 ^ 53) : nearestFloat64 n = n := by
  rcases Nat.lt_or_ge n (2 ^ 53) with hlt | hge
  · unfold nearestFloat64
    rw [roundToFloat64_small n hlt]
    simp
  · have : n = 2 ^ 53 := le_antisymm h hge
    subst this
    decide

theorem nearestFloat64_large (n : Nat) (h : 2 ^ 53 < n) (hn : nearestFloat64 n ≤ 2 ^ 53) :
    n = 2 ^ 53 + 1 := by
  have hlt := bitLen_lt n
  have hge := bitLen_ge n (by omega)
  have hb : 54 ≤ bitLen n := by
    have h2 : 2 ^ 53 < 2 ^ bitLen n := lt_trans h hlt
    have h3 := (Nat.pow_lt_pow_iff_right (by norm_num : 1 < 2)).mp h2
    omega
  obtain ⟨e, he⟩ : ∃ e, bitLen n = 54 + e := ⟨bitLen n - 54, by omega⟩
  have hsub : bitLen n - 53 = e + 1 := by omega
  have hsub1 : bitLen n - 1 = 52 + (e + 1) := by omega
  rw [hsub1, pow_add] at hge
  have hpos : 0 < 2 ^ (e + 1) := pow_pos (by norm_num) _
  have hq : 2 ^ 52 ≤ n / 2 ^ (e + 1) := by
    rw [Nat.le_div_iff_mul_le hpos]
    exact hge
  have hval : 2 ^ 52 * 2 ^ (e + 1) ≤ nearestFloat64 n
      ∧ (nearestFloat64 n = (n / 2 ^ (e + 1)) * 2 ^ (e + 1)
          ∨ nearestFloat64 n = (n / 2 ^ (e + 1) + 1) * 2 ^ (e + 1)) := by
    unfold nearestFloat64 roundToFloat64
    simp only [hsub]
    split
    · exact ⟨Nat.mul_le_mul_right _ (by omega), Or.inr rfl⟩
    · exact ⟨Nat.mul_le_mul_right _ hq, Or.inl rfl⟩
  have h53 : (2:Nat) ^ 53 = 2 ^ 52 * 2 := by norm_num
  have he0 : e = 0 := by
    by_contra hne
    have h4 : 2 ^ 2 ≤ 2 ^ (e + 1) := Nat.pow_le_pow_right (by norm_num) (by omega)
    have h5 : 2 ^ 52 * 2 ^ 2 ≤ 2 ^ 52 * 2 ^ (e + 1) := Nat.mul_le_mul_left _ h4
    have h6 := le_trans (le_trans h5 hval.1) hn
    norm_num at h6
  subst he0
  simp only [zero_add, pow_one] at hval hq hge
  rcases hval.2 with h7 | h7
  · rw [h7] at hn
    have : n / 2 * 2 ≤ 2 ^ 53 := hn
    omega
  · rw [h7] at hn
    have : (n / 2 + 1) * 2 ≤ 2 ^ 53 := hn
    omega

theorem shortestAux_small (v len : Nat) (hv : v ≤ 2 ^ 53) :
    ∀ fuel k, shortestAux v len fuel k = v := by
  intro fuel
  induction fuel with
  | zero => intro k; rfl
  | succ f ih =>
    intro k
    unfold shortestAux
    by_cases hlen : len ≤ k
    · simp [hlen]
    · simp only [hlen, if_false]
      have hs : (10 : Nat) ∣ 10 ^ (len - k) := by
        obtain ⟨j, hj⟩ : ∃ j, len - k = j + 1 := ⟨len - k - 1, by omega⟩
        rw [hj, pow_succ]
        exact Dvd.intro_left _ rfl
      have hspos : 0 < 10 ^ (len - k) := pow_pos (by norm_num) _
      have hlo : v / 10 ^ (len - k) * 10 ^ (len - k) ≤ v := Nat.div_mul_le_self _ _
      have hhi : v < v / 10 ^ (len - k) * 10 ^ (len - k) + 10 ^ (len - k) := by
        have := Nat.lt_div_mul_add hspos (a := v)
        exact this
      have hhidvd : (10 : Nat) ∣ v / 10 ^ (len - k) * 10 ^ (len - k) + 10 ^ (len - k) :=
        Dvd.dvd.add (Dvd.dvd.mul_left hs _) hs
      have hno : nearestFloat64 (v / 10 ^ (len - k) * 10 ^ (len - k) + 10 ^ (len - k)) ≠ v := by
        intro heq
        rcases Nat.lt_or_ge (2 ^ 53) (v / 10 ^ (len - k) * 10 ^ (len - k) + 10 ^ (len - k))
          with hbig | hsmall
        · have h1 := nearestFloat64_large _ hbig (by rw [heq]; exact hv)
          rw [h1] at hhidvd
          norm_num at hhidvd
        · rw [nearestFloat64_small _ hsmall] at heq
          omega
      have hyes : nearestFloat64 (v / 10 ^ (len - k) * 10 ^ (len - k)) = v →
          v / 10 ^ (len - k) * 10 ^ (len - k) = v := by
        intro heq
        rw [nearestFloat64_small _ (le_trans hlo hv)] at heq
        exact heq
      simp only [hno, decide_False, Bool.and_false, Bool.false_eq_true, if_false]
      by_cases hok : nearestFloat64 (v / 10 ^ (len - k) * 10 ^ (len - k)) = v
      · simp only [hok, decide_True, if_true]
        exact hyes hok
      · simp only [hok, decide_False, Bool.false_eq_true, if_false]
        exact ih (k + 1)

theorem shortestDecimal_small (v : Nat) (hv : v ≤ 2 ^ 53) : shortestDecimal v = v :=
  shortestAux_small v _ hv _ _

theorem marshalFloat_float64OfInt (n : Int) (h : n.natAbs ≤ 2 ^ 53) :
    marshalFloat (float64OfInt n) = Except.ok (JSON.num (NumLit.int n)) := by
  have hnear := nearestFloat64_small n.natAbs h
  unfold nearestFloat64 at hnear
  have hbits : bitLen (roundToFloat64 n.natAbs).1 + (roundToFloat64 n.natAbs).2 ≤ 1024 := by
    rcases Nat.lt_or_ge n.natAbs (2 ^ 53) with hlt | hge
    · rw [roundToFloat64_small _ hlt]
      have := bitLen_le_53 _ hlt
      simp only
      omega
    · have : n.natAbs = 2 ^ 53 := le_antisymm h hge
      rw [this]
      decide
  unfold float64OfInt
  simp only [hbits, if_true]
  unfold marshalFloat
  simp only [wholeMagnitude, hnear]
  have hlt21 : n.natAbs < 10 ^ 21 := lt_of_le_of_lt h (by norm_num)
  simp only [hlt21, if_true, shortestDecimal_small _ h]
  by_cases hneg : n < 0
  · simp only [hneg, decide_True, if_true]
    congr 3
    rw [Int.ofNat_eq_coe, Int.ofNat_natAbs_of_nonpos (le_of_lt hneg), neg_neg]
  · simp only [hneg, decide_False, Bool.false_eq_true, if_false]
    congr 3
    rw [Int.ofNat_eq_coe, Int.natAbs_of_nonneg (not_lt.mp hneg)]

theorem marshal_issuedClaims (uid rle lid : Int) (cid ptf scope : String)
    (hu : uid.natAbs ≤ 2 ^ 53) (hr : rle.natAbs ≤ 2 ^ 53) (hl : lid.natAbs ≤ 2 ^ 53) :
    Marshal (Iface.map (issuedClaims uid cid ptf scope rle lid))
      = Except.ok (JSON.obj
          [("cid", JSON.str cid), ("lid", JSON.num (NumLit.int lid)), ("ptf", JSON.str ptf),
           ("rle", JSON.num (NumLit.int rle)), ("scope", JSON.str scope),
           ("uid", JSON.num (NumLit.int uid))]) := by
  unfold issuedClaims
  simp only [Marshal, MarshalMembers, marshalFloat_float64OfInt _ hu,
    marshalFloat_float64OfInt _ hr, marshalFloat_float64OfInt _ hl]
  rfl

theorem decodeInt64_small (field goType : String) (cur n : Int) (h : n.natAbs ≤ 2 ^ 53) :
    decodeInt64 field goType cur (JSON.num (NumLit.int n)) = Except.ok n := by
  unfold decodeInt64
  have h2 : -9223372036854775808 ≤ n ∧ n ≤ 9223372036854775807 := by
    constructor <;> omega
  simp only [h2, and_self, if_true]

/-- The claims round trip on numbers of magnitude at most 2^53: for a valid token
that carries the six issued claims, `ClaimsFromCtx` on the context the
middleware builds returns exactly the issued values. -/
theorem claimsFromCtx_roundtrip_small (t : Token) (ctx : Context) (uid rle lid : Int)
    (cid ptf scope : String) (hu : uid.natAbs ≤ 2 ^ 53) (hr : rle.natAbs ≤ 2 ^ 53)
    (hl : lid.natAbs ≤ 2 ^ 53) (hv : t.Valid = true)
    (hc : t.Claims = issuedClaims uid cid ptf scope rle lid) :
    ClaimsFromCtx (ctx.WithValue jwtKeyName (CtxVal.token (some t)))
      = Outcome.ret (Except.ok
          { UserID := uid, CompositeUserId := cid, Platform := ptf, Scope := scope,
            Role := rle, LID := lid, StandardClaims := claimsData.zero.StandardClaims }) := by
  have hlook : (ctx.WithValue jwtKeyName (CtxVal.token (some t))).Value jwtKeyName
      = some (CtxVal.token (some t)) := by
    simp [Context.Value, Context.WithValue, List.lookup]
  have hf : findField "cid" = some "cid" ∧ findField "lid" = some "lid"
      ∧ findField "ptf" = some "ptf" ∧ findField "rle" = some "rle"
      ∧ findField "scope" = some "scope" ∧ findField "uid" = some "uid" := by decide
  have s1 : ∀ (c : claimsData) (v : JSON), setField c "cid" v
      = (decodeString "cid" c.CompositeUserId v).map (fun x => { c with CompositeUserId := x }) :=
    fun _ _ => rfl
  have s2 : ∀ (c : claimsData) (v : JSON), setField c "lid" v
      = (decodeInt64 "lid" "int" c.LID v).map (fun x => { c with LID := x }) := fun _ _ => rfl
  have s3 : ∀ (c : claimsData) (v : JSON), setField c "ptf" v
      = (decodeString "ptf" c.Platform v).map (fun x => { c with Platform := x }) := fun _ _ => rfl
  have s4 : ∀ (c : claimsData) (v : JSON), setField c "rle" v
      = (decodeInt64 "rle" "int" c.Role v).map (fun x => { c with Role := x }) := fun _ _ => rfl
  have s5 : ∀ (c : claimsData) (v : JSON), setField c "scope" v
      = (decodeString "scope" c.Scope v).map (fun x => { c with Scope := x }) := fun _ _ => rfl
  have s6 : ∀ (c : claimsData) (v : JSON), setField c "uid" v
      = (decodeInt64 "uid" "int64" c.UserID v).map (fun x => { c with UserID := x }) :=
    fun _ _ => rfl
  unfold ClaimsFromCtx
  rw [hlook]
  simp only [hv, Bool.not_true, Bool.false_eq_true, if_false, hc,
    marshal_issuedClaims uid rle lid cid ptf scope hu hr hl, UnmarshalClaims, unmarshalMembers,
    hf.1, hf.2.1, hf.2.2.1, hf.2.2.2.1, hf.2.2.2.2.1, hf.2.2.2.2.2, s1, s2, s3, s4, s5, s6,
    decodeString, decodeInt64_small _ _ _ _ hu, decodeInt64_small _ _ _ _ hr,
    decodeInt64_small _ _ _ _ hl, Except.map]

set_option maxRecDepth 20000 in
/-- C4. Failing input of the claims round trip: a valid token issued with
`uid = 9007199254740993` (2^53 + 1) passes `AuthMiddleware`, and `ClaimsFromCtx`
on the forwarded context returns `UserID = 9007199254740992`; issued with
`uid = 9223372036854775807` (the largest int64) `ClaimsFromCtx` fails. -/
theorem claimsFromCtx_uid_not_preserved :
    (∃ r2, (AuthMiddleware (sampleParse (issuedClaims 9007199254740993 "c" "p" "s" 1 2)) sampleFmtV
          "secret" (fun w _ => w) ResponseWriter.new (requestWithAuth ["Bearer hs"])).served = some r2
      ∧ ClaimsFromCtx r2.ctx = Outcome.ret (Except.ok
          { UserID := 9007199254740992, CompositeUserId := "c", Platform := "p", Scope := "s",
            Role := 1, LID := 2, StandardClaims := claimsData.zero.StandardClaims }))
    ∧ (∃ r2, (AuthMiddleware (sampleParse (issuedClaims 9223372036854775807 "c" "p" "s" 1 2))
          sampleFmtV "secret" (fun w _ => w) ResponseWriter.new
          (requestWithAuth ["Bearer hs"])).served = some r2
      ∧ ClaimsFromCtx r2.ctx = Outcome.ret (Except.error (errorsNew
          "json: cannot unmarshal number 9223372036854776000 into Go struct field claimsData.uid of type int64"))) := by
  refine ⟨⟨_, rfl, ?_⟩, ⟨_, rfl, ?_⟩⟩
  · rfl
  · rfl

/-- C5. `ClaimsFromCtx` fails with `token not found` when nothing is stored under the
package key or the stored token pointer is nil, fails with `invalid token` when
the stored token has `Valid` false, and returns a claim set only for a stored
token with `Valid` true. -/
theorem claimsFromCtx_gate (ctx : Context) :
    (ctx.Value jwtKeyName = none →
        ClaimsFromCtx ctx = Outcome.ret (Except.error (errorsNew "token not found")))
    ∧ (ctx.Value jwtKeyName = some (CtxVal.token none) →
        ClaimsFromCtx ctx = Outcome.ret (Except.error (errorsNew "token not found")))
    ∧ (∀ t, ctx.Value jwtKeyName = some (CtxVal.token (some t)) → t.Valid = false →
        ClaimsFromCtx ctx = Outcome.ret (Except.error (errorsNew "invalid token")))
    ∧ (∀ c, ClaimsFromCtx ctx = Outcome.ret (Except.ok c) →
        ∃ t, ctx.Value jwtKeyName = some (CtxVal.token (some t)) ∧ t.Valid = true) := by
  refine ⟨?_, ?_, ?_, ?_⟩
  · intro h
    simp [ClaimsFromCtx, h]
  · intro h
    simp [ClaimsFromCtx, h]
  · intro t h hv
    simp [ClaimsFromCtx, h, hv]
  · intro c hc
    unfold ClaimsFromCtx at hc
    cases hval : ctx.Value jwtKeyName with
    | none => rw [hval] at hc; simp at hc
    | some v =>
      rw [hval] at hc
      cases v with
      | other g => simp at hc
      | token ot =>
        cases ot with
        | none => simp at hc
        | some t =>
          refine ⟨t, rfl, ?_⟩
          cases hv : t.Valid with
          | true => rfl
          | false => simp [hv] at hc

/-- On the context built by the middleware for a valid token the claims are
returned, and the stored token is a valid one. -/
theorem claimsFromCtx_gate_witness :
    ∃ t, Context.Value [(jwtKeyName, CtxVal.token (some
        { Raw := "hs", Method := some (SigningMethod.HMAC "HS256"),
          Header := [("alg", Iface.string "HS256")], Claims := issuedClaims 7 "c" "p" "s" 1 2,
          Signature := "", Valid := true }))] jwtKeyName = some (CtxVal.token (some t))
      ∧ t.Valid = true :=
  (claimsFromCtx_gate _).2.2.2
    { UserID := 7, CompositeUserId := "c", Platform := "p", Scope := "s",
      Role := 1, LID := 2, StandardClaims := claimsData.zero.StandardClaims } (by rfl)

theorem marshal_errMap (code : Int) (msg : String) :
    Marshal (errMap code msg) = Except.ok (envelope code msg) := by
  rfl

theorem writeJson_fresh (w : ResponseWriter) (code : Nat) (data : Iface) (doc : JSON)
    (hw : w.status = none) (hm : Marshal data = Except.ok doc) :
    (writeJson w code data).1.status = some code
    ∧ (writeJson w code data).1.body = w.body ++ [doc] := by
  have h1 : ((w.HeaderSet "content-type" "application/json").WriteHeader code).status = some code :=
    status_writeHeader _ _ (by rw [status_headerSet]; exact hw)
  have h2 : ((w.HeaderSet "content-type" "application/json").WriteHeader code).body = w.body := by
    rw [body_writeHeader, body_headerSet]
  unfold writeJson ResponseWriter.Encode
  simp only [hm, h1, h2, Option.getD_some]
  exact ⟨trivial, trivial⟩

theorem handleError_known (tag : String) (err : BackendError) (hk : err.kind.isLedgerPhase = true) :
    (handleError tag err).2 = Outcome.ret () := by
  unfold handleError
  cases hr : errorReport err with
  | none =>
    unfold errorReport at hr
    cases hkind : err.kind <;> rw [hkind] at hr hk <;> simp [ErrKind.isLedgerPhase] at hr hk
    split at hr <;> cases hr
  | some report =>
    simp only []
    split <;> rfl

theorem handleError_other (tag : String) (err : BackendError) (hk : err.kind.isLedgerPhase = false) :
    (handleError tag err).2
      = Outcome.panic ("unexpected error type " ++ err.kind.goType ++ ": " ++ err.Error) := by
  unfold handleError
  have hr : errorReport err = none := by
    unfold errorReport
    cases hkind : err.kind <;> rw [hkind] at hk <;> simp [ErrKind.isLedgerPhase] at hk ⊢
  rw [hr]

theorem failWith_known (calls : List BackendCall) (tag : String) (err : BackendError)
    (hk : err.kind.isLedgerPhase = true) :
    (failWith calls tag err).result = Outcome.ret (Except.error (SvcError.backend err))
    ∧ (failWith calls tag err).calls = calls := by
  have h := handleError_known tag err hk
  unfold failWith
  rcases hh : handleError tag err with ⟨out, oc⟩
  rw [hh] at h
  simp only at h
  subst h
  exact ⟨rfl, rfl⟩

theorem failWith_other (calls : List BackendCall) (tag : String) (err : BackendError)
    (hk : err.kind.isLedgerPhase = false) :
    (failWith calls tag err).result
      = Outcome.panic ("unexpected error type " ++ err.kind.goType ++ ": " ++ err.Error)
    ∧ (failWith calls tag err).calls = calls := by
  have h := handleError_other tag err hk
  unfold failWith
  rcases hh : handleError tag err with ⟨out, oc⟩
  rw [hh] at h
  simp only at h
  subst h
  exact ⟨rfl, rfl⟩

theorem failWith_calls (calls : List BackendCall) (tag : String) (err : BackendError) :
    (failWith calls tag err).calls = calls := by
  cases hk : err.kind.isLedgerPhase with
  | true => exact (failWith_known calls tag err hk).2
  | false => exact (failWith_other calls tag err hk).2

theorem decodeResult_calls (d : Deps) (calls : List BackendCall) (res : Bytes) :
    (decodeResult d calls res).calls = calls := by
  unfold decodeResult
  split <;> rfl

theorem decodeResult_ok (d : Deps) (calls : List BackendCall) (res : Bytes) (m : Option GoMap)
    (hu : d.unmarshalMap res = Except.ok m) :
    (decodeResult d calls res).result = Outcome.ret (Except.ok (ifaceOfMap m)) := by
  unfold decodeResult
  rw [hu]

theorem respond_calls (w : ResponseWriter) (s : ServiceRun) (msg : String) :
    (respond w s msg).calls = s.calls := by
  unfold respond
  split <;> rfl

/-- C6. On a body that decodes to `{"data": data}`, `HandleAddAsset` makes exactly one
call on the contract, the submission of `CreateAsset` with the single argument
`data`.  When the submission succeeds with a payload that decodes as an object,
the response is 200 with that object; when it fails with one of the four
ledger-phase errors, the response is 400 with `{"code":2,"err":"unable to
create contract"}`, the same for every such error. -/
theorem handleAddAsset_submits (d : Deps) (w : ResponseWriter) (r : Request) (data : String)
    (hw : w.status = none) (hbody : d.decodeBody r.Body = Except.ok { Data := data }) :
    (HandleAddAsset d w r).calls = [BackendCall.submit "CreateAsset" [data]]
    ∧ (∀ res m doc, d.SubmitTransaction "CreateAsset" [data] = Except.ok res →
        d.unmarshalMap res = Except.ok (some m) → Marshal (Iface.map m) = Except.ok doc →
        (HandleAddAsset d w r).w.status = some 200
        ∧ (HandleAddAsset d w r).w.body = w.body ++ [doc]
        ∧ (HandleAddAsset d w r).panicked = none)
    ∧ (∀ err, d.SubmitTransaction "CreateAsset" [data] = Except.error err →
        err.kind.isLedgerPhase = true →
        (HandleAddAsset d w r).w.status = some 400
        ∧ (HandleAddAsset d w r).w.body = w.body ++ [envelope 2 "unable to create contract"]
        ∧ (HandleAddAsset d w r).panicked = none) := by
  have hrun : HandleAddAsset d w r = respond w (CreateAsset d data) "unable to create contract" := by
    unfold HandleAddAsset
    rw [hbody]
  refine ⟨?_, ?_, ?_⟩
  · rw [hrun, respond_calls]
    unfold CreateAsset
    cases hs : d.SubmitTransaction "CreateAsset" [data] with
    | error err => exact failWith_calls _ _ _
    | ok res => exact decodeResult_calls _ _ _
  · intro res m doc hs hu hm
    have hres : (CreateAsset d data).result = Outcome.ret (Except.ok (Iface.map m)) := by
      unfold CreateAsset
      rw [hs]
      exact decodeResult_ok d _ res (some m) hu
    have hw2 := writeJson_fresh w StatusOK (Iface.map m) doc hw hm
    rw [hrun]
    unfold respond
    rw [hres]
    exact ⟨hw2.1, hw2.2, rfl⟩
  · intro err hs hk
    have hres : (CreateAsset d data).result = Outcome.ret (Except.error (SvcError.backend err)) := by
      unfold CreateAsset
      rw [hs]
      exact (failWith_known _ _ err hk).1
    have hw2 := writeJson_fresh w StatusBadRequest (errMap 2 "unable to create contract") _ hw
      (marshal_errMap 2 "unable to create contract")
    rw [hrun]
    unfold respond
    rw [hres]
    exact ⟨hw2.1, hw2.2, rfl⟩

/-- The body `{"data":"asset007"}` reaches the contract as `CreateAsset("asset007")`; an
endorsement failure is answered with 400 and the code-2 envelope. -/
theorem handleAddAsset_submits_witness :
    (HandleAddAsset (sampleDeps (Except.error (sampleError ErrKind.EndorseError false)))
        ResponseWriter.new (sampleRequest "POST" [] "\x7b\"data\":\"asset007\"\x7d")).calls
      = [BackendCall.submit "CreateAsset" ["asset007"]]
    ∧ (HandleAddAsset (sampleDeps (Except.error (sampleError ErrKind.EndorseError false)))
        ResponseWriter.new (sampleRequest "POST" [] "\x7b\"data\":\"asset007\"\x7d")).w.status = some 400
    ∧ (HandleAddAsset (sampleDeps (Except.error (sampleError ErrKind.EndorseError false)))
        ResponseWriter.new (sampleRequest "POST" [] "\x7b\"data\":\"asset007\"\x7d")).w.body
      = [envelope 2 "unable to create contract"] := by
  have h := handleAddAsset_submits (sampleDeps (Except.error (sampleError ErrKind.EndorseError false)))
    ResponseWriter.new (sampleRequest "POST" [] "\x7b\"data\":\"asset007\"\x7d") "asset007" rfl (by rfl)
  have h2 := h.2.2 (sampleError ErrKind.EndorseError false) rfl rfl
  exact ⟨h.1, h2.1, h2.2.1⟩

/-- C7. `handleError` panics exactly when the dynamic type of the error is none of
`EndorseError`, `SubmitError`, `CommitStatusError`, `CommitError`; for each of
these four it prints its report and returns, and `CreateAsset` then returns the
error to its caller, while for any other type `CreateAsset` panics. -/
theorem handleError_panics_iff (tag : String) (err : BackendError) :
    ((∃ msg, (handleError tag err).2 = Outcome.panic msg) ↔
        (err.kind ≠ ErrKind.EndorseError ∧ err.kind ≠ ErrKind.SubmitError
          ∧ err.kind ≠ ErrKind.CommitStatusError ∧ err.kind ≠ ErrKind.CommitError))
    ∧ ((err.kind = ErrKind.EndorseError ∨ err.kind = ErrKind.SubmitError
          ∨ err.kind = ErrKind.CommitStatusError ∨ err.kind = ErrKind.CommitError) →
        (handleError tag err).2 = Outcome.ret ()
        ∧ ∃ report, errorReport err = some report ∧ report ∈ (handleError tag err).1)
    ∧ (∀ (d : Deps) (data : String), d.SubmitTransaction "CreateAsset" [data] = Except.error err →
        ((err.kind = ErrKind.EndorseError ∨ err.kind = ErrKind.SubmitError
            ∨ err.kind = ErrKind.CommitStatusError ∨ err.kind = ErrKind.CommitError) →
          (CreateAsset d data).result = Outcome.ret (Except.error (SvcError.backend err)))
        ∧ ((err.kind ≠ ErrKind.EndorseError ∧ err.kind ≠ ErrKind.SubmitError
            ∧ err.kind ≠ ErrKind.CommitStatusError ∧ err.kind ≠ ErrKind.CommitError) →
          ∃ msg, (CreateAsset d data).result = Outcome.panic msg)) := by
  have hknown : (err.kind = ErrKind.EndorseError ∨ err.kind = ErrKind.SubmitError
      ∨ err.kind = ErrKind.CommitStatusError ∨ err.kind = ErrKind.CommitError)
      ↔ err.kind.isLedgerPhase = true := by
    cases err.kind <;> simp [ErrKind.isLedgerPhase]
  have hother : (err.kind ≠ ErrKind.EndorseError ∧ err.kind ≠ ErrKind.SubmitError
      ∧ err.kind ≠ ErrKind.CommitStatusError ∧ err.kind ≠ ErrKind.CommitError)
      ↔ err.kind.isLedgerPhase = false := by
    cases err.kind <;> simp [ErrKind.isLedgerPhase]
  refine ⟨?_, ?_, ?_⟩
  · rw [hother]
    constructor
    · rintro ⟨msg, hmsg⟩
      cases hk : err.kind.isLedgerPhase with
      | false => rfl
      | true =>
        rw [handleError_known tag err hk] at hmsg
        cases hmsg
    · intro hk
      exact ⟨_, handleError_other tag err hk⟩
  · intro h
    have hk := hknown.mp h
    refine ⟨handleError_known tag err hk, ?_⟩
    cases hr : errorReport err with
    | none =>
      have hp := handleError_known tag err hk
      unfold handleError at hp
      rw [hr] at hp
      cases hp
    | some report =>
      refine ⟨report, rfl, ?_⟩
      unfold handleError
      rw [hr]
      simp only []
      split <;> simp
  · intro d data hs
    constructor
    · intro h
      unfold CreateAsset
      rw [hs]
      exact (failWith_known _ _ err (hknown.mp h)).1
    · intro h
      unfold CreateAsset
      rw [hs]
      exact ⟨_, (failWith_other _ _ err (hother.mp h)).1⟩

theorem append_ne_of_take (p q a b : String) (n : Nat) (hp : n ≤ p.data.length)
    (hq : n ≤ q.data.length) (h : p.data.take n ≠ q.data.take n) : p ++ a ≠ q ++ b := by
  intro heq
  apply h
  have h2 := congrArg (fun s : String => s.data.take n) heq
  simp only [String.data_append] at h2
  rw [List.take_append_of_le_length hp, List.take_append_of_le_length hq] at h2
  exact h2

theorem handleError_second (tag : String) (err : BackendError) (report : String)
    (hr : errorReport err = some report) : (handleError tag err).1[1]? = some report := by
  unfold handleError
  rw [hr]
  simp only []
  split <;> rfl

/-- The branch of `handleError` behind `errors.Is(err, context.DeadlineExceeded)`:
for a `CommitStatusError` on which that test holds, the timeout line naming the
transaction is printed; it differs from the line for a `CommitStatusError` on
which the test fails and from the line for a `CommitError`, whatever their
fields are. -/
theorem timeout_branch_report (tag : String) (err : BackendError)
    (hk : err.kind = ErrKind.CommitStatusError) (hd : err.IsDeadlineExceeded = true) :
    errorReport err = some ("Timeout waiting for transaction " ++ err.TransactionID
        ++ " commit status: " ++ err.Error)
    ∧ (handleError tag err).1[1]? = some ("Timeout waiting for transaction " ++ err.TransactionID
        ++ " commit status: " ++ err.Error)
    ∧ (handleError tag err).2 = Outcome.ret ()
    ∧ ∀ e2 : BackendError,
        ((e2.kind = ErrKind.CommitStatusError ∧ e2.IsDeadlineExceeded = false)
          ∨ e2.kind = ErrKind.CommitError) →
        errorReport e2 ≠ errorReport err
        ∧ ∀ tag2, (handleError tag2 e2).1 ≠ (handleError tag err).1 := by
  have hr : errorReport err = some ("Timeout waiting for transaction " ++ err.TransactionID
      ++ " commit status: " ++ err.Error) := by
    unfold errorReport
    rw [hk]
    simp [hd]
  have hne : ∀ e2 : BackendError,
      ((e2.kind = ErrKind.CommitStatusError ∧ e2.IsDeadlineExceeded = false)
        ∨ e2.kind = ErrKind.CommitError) →
      ∃ rep2, errorReport e2 = some rep2 ∧ errorReport e2 ≠ errorReport err := by
    intro e2 h2
    rcases h2 with ⟨h2k, h2d⟩ | h2k
    · have hr2 : errorReport e2 = some ("Error obtaining commit status for transaction "
          ++ e2.TransactionID ++ " with gRPC status " ++ codeString e2.statusCode ++ ": "
          ++ e2.Error ++ "\n") := by
        unfold errorReport
        rw [h2k]
        simp [h2d]
      refine ⟨_, hr2, ?_⟩
      rw [hr, hr2]
      intro h
      simp only [Option.some.injEq, String.append_assoc] at h
      exact append_ne_of_take _ _ _ _ 1 (by decide) (by decide) (by decide) h
    · have hr2 : errorReport e2 = some ("Transaction " ++ e2.TransactionID
          ++ " failed to commit with status " ++ toString e2.Code ++ ": " ++ e2.Error ++ "\n") := by
        unfold errorReport
        rw [h2k]
      refine ⟨_, hr2, ?_⟩
      rw [hr, hr2]
      intro h
      simp only [Option.some.injEq, String.append_assoc] at h
      exact append_ne_of_take _ _ _ _ 2 (by decide) (by decide) (by decide) h
  refine ⟨hr, handleError_second tag err _ hr, ?_, ?_⟩
  · exact handleError_known tag err (by rw [hk]; rfl)
  · intro e2 h2
    obtain ⟨rep2, hr2, hdiff⟩ := hne e2 h2
    refine ⟨hdiff, fun tag2 heq => ?_⟩
    have h1 := handleError_second tag2 e2 rep2 hr2
    have h3 := handleError_second tag err _ hr
    rw [heq, h3] at h1
    apply hdiff
    rw [hr2, hr]
    exact h1.symm

/-- C8. Failing input of the timeout report: for the error the client returns on a
commit-status timeout (a `CommitStatusError` around the gRPC status
`DeadlineExceeded`, on which `errors.Is(err, context.DeadlineExceeded)` is
false) `handleError` prints the line of a failed status query, `Error obtaining
commit status ... with gRPC status DeadlineExceeded`, and not the timeout line
naming the transaction. -/
theorem commitStatus_timeout_misreported (tag txID msg : String) :
    errorReport (commitStatusTimeout txID msg)
      = some ("Error obtaining commit status for transaction " ++ txID ++ " with gRPC status "
          ++ "DeadlineExceeded" ++ ": " ++ msg ++ "\n")
    ∧ errorReport (commitStatusTimeout txID msg)
      ≠ some ("Timeout waiting for transaction " ++ txID ++ " commit status: " ++ msg)
    ∧ (handleError tag (commitStatusTimeout txID msg)).1
      = [tag ++ " ---\n",
         "Error obtaining commit status for transaction " ++ txID ++ " with gRPC status "
          ++ "DeadlineExceeded" ++ ": " ++ msg ++ "\n",
         "--- " ++ tag ++ "\n"]
    ∧ errorReport (commitStatusTimeout "tx1"
        "rpc error: code = DeadlineExceeded desc = context deadline exceeded")
      = some ("Error obtaining commit status for transaction tx1 with gRPC status "
          ++ "DeadlineExceeded: rpc error: code = DeadlineExceeded desc = context deadline exceeded\n")
    := by
  have hr : errorReport (commitStatusTimeout txID msg)
      = some ("Error obtaining commit status for transaction " ++ txID ++ " with gRPC status "
          ++ "DeadlineExceeded" ++ ": " ++ msg ++ "\n") := rfl
  refine ⟨hr, ?_, ?_, ?_⟩
  · rw [hr]
    intro h
    simp only [Option.some.injEq, String.append_assoc] at h
    exact append_ne_of_take _ _ _ _ 1 (by decide) (by decide) (by decide) h
  · rfl
  · decide

/-- C9. For each of the six handlers, a request whose body fails to decode into
the request body type is answered with 400 and `{"code":1,"err":"malformed
request"}`, and no call is made on the contract. -/
theorem handlers_malformed_body (d : Deps) (w : ResponseWriter) (r : Request) (e : GoError)
    (hw : w.status = none) (hbody : d.decodeBody r.Body = Except.error e) :
    ∀ h ∈ [HandleAddAsset, HandleVoidAsset, HandleReleaseAsset, HandleExpireAsset, HandleGetAsset,
        HandleGetAllAssets],
      (h d w r).w.status = some 400
      ∧ (h d w r).w.body = w.body ++ [envelope 1 "malformed request"]
      ∧ (h d w r).calls = []
      ∧ (h d w r).panicked = none := by
  have hw2 := writeJson_fresh w StatusBadRequest (errMap 1 "malformed request") _ hw
    (marshal_errMap 1 "malformed request")
  have key : (respondOnly (writeJson w StatusBadRequest (errMap 1 "malformed request")).1).w.status
        = some 400
      ∧ (respondOnly (writeJson w StatusBadRequest (errMap 1 "malformed request")).1).w.body
        = w.body ++ [envelope 1 "malformed request"]
      ∧ (respondOnly (writeJson w StatusBadRequest (errMap 1 "malformed request")).1).calls = []
      ∧ (respondOnly (writeJson w StatusBadRequest (errMap 1 "malformed request")).1).panicked
        = none := ⟨hw2.1, hw2.2, rfl, rfl⟩
  intro h hmem
  simp only [List.mem_cons, List.mem_singleton, List.not_mem_nil, or_false] at hmem
  rcases hmem with rfl | rfl | rfl | rfl | rfl | rfl
  · unfold HandleAddAsset; rw [hbody]; exact key
  · unfold HandleVoidAsset; rw [hbody]; exact key
  · unfold HandleReleaseAsset; rw [hbody]; exact key
  · unfold HandleExpireAsset; rw [hbody]; exact key
  · unfold HandleGetAsset; rw [hbody]; exact key
  · unfold HandleGetAllAssets; rw [hbody]; exact key

/-- An empty body is answered with the code-1 envelope by `HandleGetAllAssets`
and by `HandleAddAsset`, without a call on the contract. -/
theorem handlers_malformed_body_witness :
    (HandleGetAllAssets (sampleDeps (Except.ok [])) ResponseWriter.new
        (sampleRequest "POST" [] "")).w.body = [envelope 1 "malformed request"]
    ∧ (HandleAddAsset (sampleDeps (Except.ok [])) ResponseWriter.new
        (sampleRequest "POST" [] "")).w.status = some 400
    ∧ (HandleAddAsset (sampleDeps (Except.ok [])) ResponseWriter.new
        (sampleRequest "POST" [] "")).calls = [] := by
  have h := handlers_malformed_body (sampleDeps (Except.ok [])) ResponseWriter.new
    (sampleRequest "POST" [] "") (errorsNew "EOF") rfl (by rfl)
  exact ⟨(h HandleGetAllAssets (by simp)).2.1, (h HandleAddAsset (by simp)).1,
    (h HandleAddAsset (by simp)).2.2.1⟩

/-- C10, as stated, fails: a GET request without a query id and with an empty body
is answered with the code-1 envelope `malformed request`, not with the code-3
envelope `id is empty`. -/
theorem handleGetAsset_no_id_empty_body :
    (sampleRequest "GET" [] "").Query.Get "id" = ""
    ∧ (HandleGetAsset (sampleDeps (Except.ok [])) ResponseWriter.new
        (sampleRequest "GET" [] "")).w.body = [envelope 1 "malformed request"]
    ∧ (HandleGetAsset (sampleDeps (Except.ok [])) ResponseWriter.new
        (sampleRequest "GET" [] "")).w.body ≠ [envelope 3 "id is empty"] := by
  have hb : (HandleGetAsset (sampleDeps (Except.ok [])) ResponseWriter.new
      (sampleRequest "GET" [] "")).w.body = [envelope 1 "malformed request"] := by
    rfl
  refine ⟨rfl, hb, ?_⟩
  rw [hb]
  intro h
  simp [envelope] at h

/-- C10, amended. A request to `HandleGetAsset` without a query id is answered with
400 and no call is made on the contract; the body is `{"code":3,"err":"id is
empty"}` when the request body decodes into the request body type, and
`{"code":1,"err":"malformed request"}` when it does not. -/
theorem handleGetAsset_no_id (d : Deps) (w : ResponseWriter) (r : Request)
    (hw : w.status = none) (hid : r.Query.Get "id" = "") :
    (HandleGetAsset d w r).w.status = some 400
    ∧ (HandleGetAsset d w r).calls = []
    ∧ (HandleGetAsset d w r).panicked = none
    ∧ (∀ b, d.decodeBody r.Body = Except.ok b →
        (HandleGetAsset d w r).w.body = w.body ++ [envelope 3 "id is empty"])
    ∧ (∀ e, d.decodeBody r.Body = Except.error e →
        (HandleGetAsset d w r).w.body = w.body ++ [envelope 1 "malformed request"]) := by
  have h1 := writeJson_fresh w StatusBadRequest (errMap 1 "malformed request") _ hw
    (marshal_errMap 1 "malformed request")
  have h3 := writeJson_fresh w StatusBadRequest (errMap 3 "id is empty") _ hw
    (marshal_errMap 3 "id is empty")
  cases hb : d.decodeBody r.Body with
  | error e =>
    have hrun : HandleGetAsset d w r
        = respondOnly (writeJson w StatusBadRequest (errMap 1 "malformed request")).1 := by
      unfold HandleGetAsset
      rw [hb]
    rw [hrun]
    refine ⟨h1.1, rfl, rfl, ?_, ?_⟩
    · intro b hb2; cases hb2
    · intro _ _; exact h1.2
  | ok b =>
    have hrun : HandleGetAsset d w r
        = respondOnly (writeJson w StatusBadRequest (errMap 3 "id is empty")).1 := by
      unfold HandleGetAsset
      rw [hb]
      simp [hid]
    rw [hrun]
    refine ⟨h3.1, rfl, rfl, ?_, ?_⟩
    · intro _ _; exact h3.2
    · intro e hb2; cases hb2

/-- A GET request whose body decodes and that has no query id is answered with
400 and the code-3 envelope, and the contract is not called. -/
theorem handleGetAsset_no_id_witness :
    (HandleGetAsset (sampleDeps (Except.ok [])) ResponseWriter.new
        (sampleRequest "GET" [] "null")).w.status = some 400
    ∧ (HandleGetAsset (sampleDeps (Except.ok [])) ResponseWriter.new
        (sampleRequest "GET" [] "null")).calls = []
    ∧ (HandleGetAsset (sampleDeps (Except.ok [])) ResponseWriter.new
        (sampleRequest "GET" [] "null")).w.body = [envelope 3 "id is empty"] := by
  have h := handleGetAsset_no_id (sampleDeps (Except.ok [])) ResponseWriter.new
    (sampleRequest "GET" [] "null") rfl rfl
  exact ⟨h.1, h.2.1, h.2.2.2.1 { Data := "" } (by rfl)⟩

theorem calls_ReadAssetByID (d : Deps) (id : String) :
    (ReadAssetByID d id).calls = [BackendCall.evaluate "ReadAsset" [id]] := by
  unfold ReadAssetByID
  cases hs : d.EvaluateTransaction "ReadAsset" [id] with
  | error err => exact failWith_calls _ _ _
  | ok res =>
    simp only []
    split <;> rfl

theorem calls_GetAllAssets (d : Deps) :
    (GetAllAssets d).calls = [BackendCall.evaluate "GetAllAssets" []] := by
  unfold GetAllAssets
  cases hs : d.EvaluateTransaction "GetAllAssets" [] with
  | error err => exact failWith_calls _ _ _
  | ok res => rfl

theorem calls_submitAndDecode (d : Deps) (name tag data : String) :
    (match d.SubmitTransaction name [data] with
      | Except.error err => failWith [BackendCall.submit name [data]] tag err
      | Except.ok res => decodeResult d [BackendCall.submit name [data]] res).calls
      = [BackendCall.submit name [data]] := by
  cases hs : d.SubmitTransaction name [data] with
  | error err => exact failWith_calls _ _ _
  | ok res => exact decodeResult_calls _ _ _

/-- What the four body handlers pass on: whenever the body decodes, the `Data`
string goes to the contract as it is, empty or not. -/
theorem handlers_forward_data (d : Deps) (w : ResponseWriter) (r : Request) (data : String)
    (hbody : d.decodeBody r.Body = Except.ok { Data := data }) :
    (HandleAddAsset d w r).calls = [BackendCall.submit "CreateAsset" [data]]
    ∧ (HandleVoidAsset d w r).calls = [BackendCall.submit "VodataAsset" [data]]
    ∧ (HandleReleaseAsset d w r).calls = [BackendCall.submit "ReleaseAsset" [data]]
    ∧ (HandleExpireAsset d w r).calls = [BackendCall.submit "ExpireAsset" [data]] := by
  refine ⟨?_, ?_, ?_, ?_⟩
  · unfold HandleAddAsset
    rw [hbody, respond_calls]
    exact calls_submitAndDecode d "CreateAsset" _ data
  · unfold HandleVoidAsset
    rw [hbody, respond_calls]
    exact calls_submitAndDecode d "VodataAsset" _ data
  · unfold HandleReleaseAsset
    rw [hbody, respond_calls]
    exact calls_submitAndDecode d "ReleaseAsset" _ data
  · unfold HandleExpireAsset
    rw [hbody, respond_calls]
    exact calls_submitAndDecode d "ExpireAsset" _ data

/-- The part of the invariant that the code keeps: every call `HandleGetAsset`
makes on the contract is `ReadAsset` with one non-empty identifier, the query
parameter `id`. -/
theorem handleGetAsset_calls_nonempty (d : Deps) (w : ResponseWriter) (r : Request) :
    ∀ c ∈ (HandleGetAsset d w r).calls,
      c = BackendCall.evaluate "ReadAsset" [r.Query.Get "id"] ∧ r.Query.Get "id" ≠ "" := by
  intro c hc
  unfold HandleGetAsset at hc
  cases hb : d.decodeBody r.Body with
  | error e =>
    rw [hb] at hc
    simp [respondOnly] at hc
  | ok b =>
    rw [hb] at hc
    simp only [] at hc
    by_cases hid : r.Query.Get "id" = ""
    · simp [hid, respondOnly] at hc
    · simp only [hid, if_false] at hc
      have hcalls := calls_ReadAssetByID d (r.Query.Get "id")
      have hmem : c ∈ (ReadAssetByID d (r.Query.Get "id")).calls := by
        split at hc <;> exact hc
      rw [hcalls] at hmem
      simp only [List.mem_singleton] at hmem
      exact ⟨hmem, hid⟩

/-- The call `HandleGetAllAssets` makes on the contract carries no argument. -/
theorem handleGetAllAssets_calls (d : Deps) (w : ResponseWriter) (r : Request) :
    ∀ c ∈ (HandleGetAllAssets d w r).calls, c = BackendCall.evaluate "GetAllAssets" [] := by
  intro c hc
  unfold HandleGetAllAssets at hc
  cases hb : d.decodeBody r.Body with
  | error e =>
    rw [hb] at hc
    simp [respondOnly] at hc
  | ok b =>
    rw [hb] at hc
    simp only [] at hc
    rw [respond_calls, calls_GetAllAssets] at hc
    simpa using hc

/-- C11. Failing input of the non-empty payload invariant: on the body
`{"data":""}` each of `HandleAddAsset`, `HandleVoidAsset`, `HandleReleaseAsset`
and `HandleExpireAsset` calls its service operation, which submits the
transaction with the empty string as its single argument; when the backend
answers with the payload `{}`, `HandleAddAsset` responds 200. -/
theorem handlers_submit_empty_payload :
    sampleDecodeBody "\x7b\"data\":\"\"\x7d" = Except.ok { Data := "" }
    ∧ (HandleAddAsset (sampleDeps (Except.ok [123, 125])) ResponseWriter.new
        (sampleRequest "POST" [] "\x7b\"data\":\"\"\x7d")).calls
      = [BackendCall.submit "CreateAsset" [""]]
    ∧ (HandleVoidAsset (sampleDeps (Except.ok [123, 125])) ResponseWriter.new
        (sampleRequest "PUT" [] "\x7b\"data\":\"\"\x7d")).calls
      = [BackendCall.submit "VodataAsset" [""]]
    ∧ (HandleReleaseAsset (sampleDeps (Except.ok [123, 125])) ResponseWriter.new
        (sampleRequest "PUT" [] "\x7b\"data\":\"\"\x7d")).calls
      = [BackendCall.submit "ReleaseAsset" [""]]
    ∧ (HandleExpireAsset (sampleDeps (Except.ok [123, 125])) ResponseWriter.new
        (sampleRequest "PUT" [] "\x7b\"data\":\"\"\x7d")).calls
      = [BackendCall.submit "ExpireAsset" [""]]
    ∧ (HandleAddAsset (sampleDeps (Except.ok [123, 125])) ResponseWriter.new
        (sampleRequest "POST" [] "\x7b\"data\":\"\"\x7d")).w.status = some 200 := by
  refine ⟨?_, ?_, ?_, ?_, ?_, ?_⟩
  · rfl
  · decide
  · decide
  · decide
  · decide
  · decide

end FabricGateway


